import Mathlib

/-!
Verification of `optimum/neuron/modeling_diffusion.py` and
`optimum/neuron/utils/version_utils.py` (repository `optimum-neuron`).

The Python code is shallowly embedded: tensors become records of dtype,
shape and integer data; the filesystem becomes an association list from
paths (lists of components) to file contents; Python `None` becomes
`Option`; exceptions raised by the repository's own code become
`Except String`.
-/

/-- Python's `pat in s` substring test on strings. -/
def strContains (s pat : String) : Bool :=
  decide (pat.data <:+: s.data)

/-- Python's `s.startswith(p)` on strings. -/
def strStartsWith (s p : String) : Bool :=
  p.data.isPrefixOf s.data

/-! ### `is_lcm` / `set_default_dp_mode`
(`NeuronStableDiffusionPipelineBase`, modeling_diffusion.py lines 300-304
and 435-442), and the default chosen at line 660-661 of `_from_pretrained`. -/

/-- The slice of the U-Net `PretrainedConfig` inspected by `is_lcm`:
`getattr(unet_config, "_name_or_path", "")`, absent attribute modelled
as `none`. -/
structure UnetConfig where
  name_or_path : Option String

/-- `getattr(unet_config, "_name_or_path", "")`. -/
def UnetConfig.nameOrPath (c : UnetConfig) : String :=
  c.name_or_path.getD ""

/-- `NeuronStableDiffusionPipelineBase.is_lcm` (lines 300-304). -/
def is_lcm (unet_config : UnetConfig) : Bool :=
  let patterns := ["lcm", "latent-consistency"]
  let unet_name_or_path := unet_config.nameOrPath.toLower
  patterns.any (fun pattern => strContains unet_name_or_path pattern)

/-- `NeuronStableDiffusionPipelineBase.set_default_dp_mode` (lines 435-442). -/
def set_default_dp_mode (unet_config : UnetConfig) : String :=
  if is_lcm unet_config = true then "all" else "unet"

/-- The default applied in `_from_pretrained` (lines 660-661):
`if data_parallel_mode is None: data_parallel_mode = cls.set_default_dp_mode(configs["unet"])`. -/
def defaultDataParallelMode (data_parallel_mode : Option String) (unet_config : UnetConfig) : String :=
  match data_parallel_mode with
  | some m => m
  | none => set_default_dp_mode unet_config

/-- C8: when `data_parallel_mode` is not supplied to `_from_pretrained`, the
default placement mode is `"all"` iff the U-Net config's `_name_or_path`,
lowercased, contains `"lcm"` or `"latent-consistency"`, is `"unet"`
otherwise, and is never `"none"`. -/
theorem C8_default_dp_mode (cfg : UnetConfig) :
    (defaultDataParallelMode none cfg = "all" ↔
      (strContains cfg.nameOrPath.toLower "lcm" = true ∨
       strContains cfg.nameOrPath.toLower "latent-consistency" = true))
    ∧ (¬ (strContains cfg.nameOrPath.toLower "lcm" = true ∨
          strContains cfg.nameOrPath.toLower "latent-consistency" = true) →
        defaultDataParallelMode none cfg = "unet")
    ∧ defaultDataParallelMode none cfg ≠ "none" := by
  have hmode : defaultDataParallelMode none cfg = set_default_dp_mode cfg := rfl
  have hlcm : is_lcm cfg =
      (strContains cfg.nameOrPath.toLower "lcm" ||
       strContains cfg.nameOrPath.toLower "latent-consistency") := by
    simp [is_lcm, List.any]
  constructor
  · rw [hmode]
    unfold set_default_dp_mode
    rw [hlcm]
    by_cases h1 : strContains cfg.nameOrPath.toLower "lcm" = true <;>
      by_cases h2 : strContains cfg.nameOrPath.toLower "latent-consistency" = true <;>
        simp [h1, h2]
  constructor
  · intro h
    rw [hmode]
    unfold set_default_dp_mode
    rw [hlcm]
    push_neg at h
    simp [h.1, h.2]
  · rw [hmode]
    unfold set_default_dp_mode
    by_cases h : is_lcm cfg = true <;> simp [h]

/-! ### `load_model`
(`NeuronStableDiffusionPipelineBase.load_model`, modeling_diffusion.py
lines 306-424).  Compiled TorchScript modules are identified by their
path; `torch_neuronx.DataParallel(submodel, [0, 1], set_dynamic_batching=...)`
and the plain `NeuronTracedModel.load_model(path, to_neuron=...)` become
the two constructors of `LoadedModel`.  The filesystem is an `is_file`
predicate on paths. -/

/-- A filesystem path, as a list of components. -/
abbrev FsPath := List String

/-- A compiled sub-model after loading: either wrapped in
`torch_neuronx.DataParallel` over the given core ids, or loaded plainly by
`NeuronTracedModel.load_model`. -/
inductive LoadedModel
  | dataParallel (path : FsPath) (cores : List Nat) (setDynamicBatching : Bool)
  | plain (path : FsPath) (toNeuron : Bool)
deriving DecidableEq, Repr

/-- A Python dict value that is either a single object or a list of them
(`submodels_list if len(submodels_list) > 1 else submodels_list[0]`). -/
inductive PySlot (α : Type _)
  | one (a : α)
  | many (l : List α)
deriving DecidableEq, Repr

/-- The objects held by an optional slot. -/
def slotModels : Option (PySlot α) → List α
  | none => []
  | some (.one a) => [a]
  | some (.many l) => l

/-- `submodels_list if len(submodels_list) > 1 else submodels_list[0]` when
the list is non-empty, `None` when it is empty. -/
def collapseList : List α → Option (PySlot α)
  | [] => none
  | [a] => some (.one a)
  | l => some (.many l)

theorem slotModels_collapseList (l : List α) : slotModels (collapseList l) = l := by
  match l with
  | [] => rfl
  | [a] => rfl
  | a :: b :: t => rfl

/-- The path arguments of `load_model`: `unet_path` is mandatory, the rest
are optional, controlnets come as an optional list. -/
structure SubmodelPaths where
  text_encoder : Option FsPath
  unet : FsPath
  vae_decoder : Option FsPath
  vae_encoder : Option FsPath
  text_encoder_2 : Option FsPath
  controlnet : Option (List FsPath)

/-- The `submodels` dict returned by `load_model`: one slot per name
(a missing or popped key and a `None` value both read back as `None`). -/
structure LoadResult where
  text_encoder : Option (PySlot LoadedModel)
  unet : Option (PySlot LoadedModel)
  vae_decoder : Option (PySlot LoadedModel)
  vae_encoder : Option (PySlot LoadedModel)
  text_encoder_2 : Option (PySlot LoadedModel)
  controlnet : Option (PySlot LoadedModel)

/-- `if not isinstance(submodel_paths, list): submodel_paths = [submodel_paths]`
for the controlnet entry, whose dict value is already a list (or `None`). -/
def controlnetPathList : Option (List FsPath) → List (Option FsPath)
  | none => [none]
  | some l => l.map some

/-- One iteration group of the `data_parallel_mode == "all"` branch: keep the
paths that are present and are files, wrap each in `DataParallel` over cores
`[0, 1]`, then collapse the list like the source does. -/
def loadSlotDP (isFile : FsPath → Bool) (dyn : Bool) (paths : List (Option FsPath)) :
    Option (PySlot LoadedModel) :=
  collapseList (((paths.filterMap id).filter isFile).map
    (fun p => LoadedModel.dataParallel p [0, 1] dyn))

/-- One iteration group of the `data_parallel_mode == "none"` branch. -/
def loadSlotPlain (isFile : FsPath → Bool) (toNeuron : Bool) (paths : List (Option FsPath)) :
    Option (PySlot LoadedModel) :=
  collapseList (((paths.filterMap id).filter isFile).map
    (fun p => LoadedModel.plain p toNeuron))

/-- One name of the `data_parallel_mode == "unet"` branch (other than the
U-Net and the controlnets): a single module or `None`. -/
def loadSingle (isFile : FsPath → Bool) (toNeuron : Bool) : Option FsPath →
    Option (PySlot LoadedModel)
  | some p => if isFile p then some (.one (.plain p toNeuron)) else none
  | none => none

/-- `NeuronStableDiffusionPipelineBase.load_model` (lines 306-424). -/
def load_model (data_parallel_mode : Option String) (paths : SubmodelPaths)
    (isFile : FsPath → Bool) (dynamic_batch_size : Bool) (to_neuron : Bool) :
    Except String LoadResult :=
  if data_parallel_mode = some "all" then
    .ok
      { text_encoder := loadSlotDP isFile dynamic_batch_size [paths.text_encoder]
        unet := loadSlotDP isFile dynamic_batch_size [some paths.unet]
        vae_decoder := loadSlotDP isFile dynamic_batch_size [paths.vae_decoder]
        vae_encoder := loadSlotDP isFile dynamic_batch_size [paths.vae_encoder]
        text_encoder_2 := loadSlotDP isFile dynamic_batch_size [paths.text_encoder_2]
        controlnet := loadSlotDP isFile dynamic_batch_size (controlnetPathList paths.controlnet) }
  else if data_parallel_mode = some "unet" then
    .ok
      { text_encoder := loadSingle isFile to_neuron paths.text_encoder
        -- the U-Net is loaded and wrapped without an `is_file` check
        unet := some (.one (.dataParallel paths.unet [0, 1] dynamic_batch_size))
        vae_decoder := loadSingle isFile to_neuron paths.vae_decoder
        vae_encoder := loadSingle isFile to_neuron paths.vae_encoder
        text_encoder_2 := loadSingle isFile to_neuron paths.text_encoder_2
        controlnet :=
          match paths.controlnet with
          | none => none
          | some [] => none
          | some cps =>
            collapseList ((cps.filter isFile).map
              (fun p => LoadedModel.dataParallel p [0, 1] dynamic_batch_size)) }
  else if data_parallel_mode = some "none" then
    .ok
      { text_encoder := loadSlotPlain isFile to_neuron [paths.text_encoder]
        unet := loadSlotPlain isFile to_neuron [some paths.unet]
        vae_decoder := loadSlotPlain isFile to_neuron [paths.vae_decoder]
        vae_encoder := loadSlotPlain isFile to_neuron [paths.vae_encoder]
        text_encoder_2 := loadSlotPlain isFile to_neuron [paths.text_encoder_2]
        controlnet := loadSlotPlain isFile to_neuron (controlnetPathList paths.controlnet) }
  else
    .error "You need to pass `data_parallel_mode` to define Neuron Core allocation."

/-- All loaded modules of a result, across the six slots. -/
def allLoaded (r : LoadResult) : List LoadedModel :=
  slotModels r.text_encoder ++ slotModels r.unet ++ slotModels r.vae_decoder ++
    slotModels r.vae_encoder ++ slotModels r.text_encoder_2 ++ slotModels r.controlnet

theorem mem_loadSlotDP (f : FsPath → Bool) (d : Bool) (ps : List (Option FsPath)) :
    ∀ m ∈ slotModels (loadSlotDP f d ps), ∃ p, m = .dataParallel p [0, 1] d := by
  intro m hm
  rw [loadSlotDP, slotModels_collapseList] at hm
  simp only [List.mem_map] at hm
  obtain ⟨p, _, rfl⟩ := hm
  exact ⟨p, rfl⟩

theorem mem_loadSlotPlain (f : FsPath → Bool) (t : Bool) (ps : List (Option FsPath)) :
    ∀ m ∈ slotModels (loadSlotPlain f t ps), ∃ p, m = .plain p t := by
  intro m hm
  rw [loadSlotPlain, slotModels_collapseList] at hm
  simp only [List.mem_map] at hm
  obtain ⟨p, _, rfl⟩ := hm
  exact ⟨p, rfl⟩

theorem loadSlotDP_mem (f : FsPath → Bool) (d : Bool) (ps : List (Option FsPath)) (p : FsPath)
    (hp : some p ∈ ps) (hf : f p = true) :
    LoadedModel.dataParallel p [0, 1] d ∈ slotModels (loadSlotDP f d ps) := by
  rw [loadSlotDP, slotModels_collapseList]
  refine List.mem_map_of_mem _ ?_
  rw [List.mem_filter]
  exact ⟨List.mem_filterMap.2 ⟨some p, hp, rfl⟩, hf⟩

theorem mem_loadSingle (f : FsPath → Bool) (t : Bool) (op : Option FsPath) :
    ∀ m ∈ slotModels (loadSingle f t op), ∃ p, m = .plain p t := by
  intro m hm
  match op with
  | none => simp [loadSingle, slotModels] at hm
  | some p =>
    by_cases hf : f p = true
    · simp [loadSingle, hf, slotModels] at hm
      exact ⟨p, hm⟩
    · simp [loadSingle, hf, slotModels] at hm

/-- C3: placement under the three data-parallel modes.  With mode `"all"`
every sub-model whose compiled file exists is wrapped in `DataParallel` over
cores `[0, 1]` (and nothing else is loaded); with mode `"unet"` the U-Net and
every existing ControlNet are wrapped in `DataParallel` over `[0, 1]` while
text encoders and VAE encoder/decoder are loaded without replication; with
mode `"none"` no sub-model is replicated. -/
theorem C3_load_model_placement (paths : SubmodelPaths) (isFile : FsPath → Bool)
    (dyn to_neuron : Bool) :
    (∃ r, load_model (some "all") paths isFile dyn to_neuron = .ok r ∧
      (∀ m ∈ allLoaded r, ∃ p, m = .dataParallel p [0, 1] dyn) ∧
      (∀ p, paths.text_encoder = some p → isFile p = true →
        LoadedModel.dataParallel p [0, 1] dyn ∈ slotModels r.text_encoder) ∧
      (isFile paths.unet = true →
        LoadedModel.dataParallel paths.unet [0, 1] dyn ∈ slotModels r.unet) ∧
      (∀ p, paths.vae_decoder = some p → isFile p = true →
        LoadedModel.dataParallel p [0, 1] dyn ∈ slotModels r.vae_decoder) ∧
      (∀ p, paths.vae_encoder = some p → isFile p = true →
        LoadedModel.dataParallel p [0, 1] dyn ∈ slotModels r.vae_encoder) ∧
      (∀ p, paths.text_encoder_2 = some p → isFile p = true →
        LoadedModel.dataParallel p [0, 1] dyn ∈ slotModels r.text_encoder_2) ∧
      (∀ cps p, paths.controlnet = some cps → p ∈ cps → isFile p = true →
        LoadedModel.dataParallel p [0, 1] dyn ∈ slotModels r.controlnet))
    ∧ (∃ r, load_model (some "unet") paths isFile dyn to_neuron = .ok r ∧
      slotModels r.unet = [LoadedModel.dataParallel paths.unet [0, 1] dyn] ∧
      (∀ cps p, paths.controlnet = some cps → p ∈ cps → isFile p = true →
        LoadedModel.dataParallel p [0, 1] dyn ∈ slotModels r.controlnet) ∧
      (∀ m ∈ slotModels r.text_encoder, ∃ p, m = .plain p to_neuron) ∧
      (∀ m ∈ slotModels r.vae_decoder, ∃ p, m = .plain p to_neuron) ∧
      (∀ m ∈ slotModels r.vae_encoder, ∃ p, m = .plain p to_neuron) ∧
      (∀ m ∈ slotModels r.text_encoder_2, ∃ p, m = .plain p to_neuron))
    ∧ (∃ r, load_model (some "none") paths isFile dyn to_neuron = .ok r ∧
      ∀ m ∈ allLoaded r, ∃ p t, m = .plain p t) := by
  refine ⟨⟨_, rfl, ?_, ?_, ?_, ?_, ?_, ?_, ?_⟩, ⟨_, rfl, ?_, ?_, ?_, ?_, ?_, ?_⟩,
    ⟨_, rfl, ?_⟩⟩
  · intro m hm
    simp only [allLoaded, List.mem_append] at hm
    rcases hm with ((((h | h) | h) | h) | h) | h <;>
      exact mem_loadSlotDP _ _ _ m h
  · intro p hp hf
    exact loadSlotDP_mem _ _ _ _ (by rw [hp]; exact List.mem_singleton_self _) hf
  · intro hf
    exact loadSlotDP_mem _ _ _ _ (List.mem_singleton_self _) hf
  · intro p hp hf
    exact loadSlotDP_mem _ _ _ _ (by rw [hp]; exact List.mem_singleton_self _) hf
  · intro p hp hf
    exact loadSlotDP_mem _ _ _ _ (by rw [hp]; exact List.mem_singleton_self _) hf
  · intro p hp hf
    exact loadSlotDP_mem _ _ _ _ (by rw [hp]; exact List.mem_singleton_self _) hf
  · intro cps p hcn hp hf
    refine loadSlotDP_mem _ _ _ _ ?_ hf
    rw [hcn]
    exact List.mem_map_of_mem some hp
  · rfl
  · intro cps p hcn hp hf
    simp only [hcn]
    match cps, hp with
    | a :: t, hp =>
      rw [slotModels_collapseList]
      refine List.mem_map_of_mem _ ?_
      rw [List.mem_filter]
      exact ⟨hp, hf⟩
  · exact mem_loadSingle _ _ _
  · exact mem_loadSingle _ _ _
  · exact mem_loadSingle _ _ _
  · exact mem_loadSingle _ _ _
  · intro m hm
    simp only [allLoaded, List.mem_append] at hm
    rcases hm with ((((h | h) | h) | h) | h) | h <;>
      · obtain ⟨p, rfl⟩ := mem_loadSlotPlain _ _ _ m h
        exact ⟨p, to_neuron, rfl⟩

/-- Witness for C3 at a concrete input: with mode `"none"`, a pipeline whose
U-Net file exists is loaded without any `DataParallel` wrapping. -/
theorem C3_load_model_placement_witness :
    ∃ r, load_model (some "none")
        { text_encoder := some ["m", "text_encoder", "model.neuron"]
          unet := ["m", "unet", "model.neuron"]
          vae_decoder := some ["m", "vae_decoder", "model.neuron"]
          vae_encoder := none
          text_encoder_2 := none
          controlnet := none }
        (fun _ => true) false false = .ok r ∧
      ∀ m ∈ allLoaded r, ∃ p t, m = .plain p t :=
  (C3_load_model_placement _ (fun _ => true) false false).2.2

/-! ### `get_neuronxcc_version`
(utils/version_utils.py lines 18-23).  The `neuronxcc` Python package is
modelled by its optionally installed version string. -/

/-- `get_neuronxcc_version`: raises `ValueError("NeuronX Compiler python
package is not installed.")` when the import fails, else returns
`neuronxcc.__version__`. -/
def get_neuronxcc_version (installed_neuronxcc : Option String) : Except String String :=
  match installed_neuronxcc with
  | none => .error "NeuronX Compiler python package is not installed."
  | some v => .ok v

/-- C6 counterexample: `load_model` raises an error of its own — a
`ValueError` produced by this repository, not by the vendor runtime — when
`data_parallel_mode` is `None`. -/
theorem C6_counterexample :
    load_model none
      { text_encoder := none
        unet := ["m", "unet", "model.neuron"]
        vae_decoder := none
        vae_encoder := none
        text_encoder_2 := none
        controlnet := none }
      (fun _ => false) false false =
    .error "You need to pass `data_parallel_mode` to define Neuron Core allocation." := rfl

/-- C6 amended: the repository's own code performs no failure recovery and
raises only input-validation errors: `load_model` fails exactly when
`data_parallel_mode` is not one of `"none"`, `"unet"`, `"all"` (and then with
its own `ValueError`), and `get_neuronxcc_version` fails exactly when the
compiler package is missing; on valid inputs both succeed, and every other
failure propagates from the opaque vendor toolchain. -/
theorem C6_errors_only_validation (mode : Option String) (paths : SubmodelPaths)
    (isFile : FsPath → Bool) (dyn t : Bool) (pkg : Option String) :
    ((∃ e, load_model mode paths isFile dyn t = .error e) ↔
      (mode ≠ some "all" ∧ mode ≠ some "unet" ∧ mode ≠ some "none"))
    ∧ ((∃ e, get_neuronxcc_version pkg = .error e) ↔ pkg = none) := by
  constructor
  · by_cases h1 : mode = some "all"
    · simp [load_model, h1]
    · by_cases h2 : mode = some "unet"
      · simp [load_model, h1, h2]
      · by_cases h3 : mode = some "none"
        · simp [load_model, h1, h2, h3]
        · simp [load_model, h1, h2, h3]
  · match pkg with
    | none => simp [get_neuronxcc_version]
    | some v => simp [get_neuronxcc_version]

/-! ### Cache key and cache lookup in `_export`
(`NeuronStableDiffusionPipelineBase._export`, modeling_diffusion.py lines
707-951; the compilation-config loop is lines 869-894, the lookup lines
896-903).  `store_compilation_config`, `build_cache_config` and
`ModelCacheEntry` live in `optimum/neuron/utils`, which is not under `src/`,
so they are modelled from the spec. -/

/-- The compiler arguments gathered by `_export` (lines 816-821), after the
normalization `auto_cast_type = None if auto_cast is None else auto_cast_type`. -/
structure CompilerKwargs where
  auto_cast : Option String
  auto_cast_type : Option String
deriving DecidableEq, Repr

/-- `_export` lines 817-821: builds `compiler_kwargs` from the `auto_cast`
and `auto_cast_type` arguments. -/
def mkCompilerKwargs (auto_cast auto_cast_type : Option String) : CompilerKwargs :=
  { auto_cast := auto_cast
    auto_cast_type := if auto_cast = none then none else auto_cast_type }

/-- The per-sub-model neuron configuration consumed by the `_export` loop:
`neuron_config.input_shapes`, `.inputs`, `.outputs`, `.dynamic_batch_size`,
`MODEL_TYPE`, `task` and `output_hidden_states`. -/
structure SubmodelNeuronConfig where
  input_shapes : List (String × List Nat)
  inputs : List String
  outputs : List String
  dynamic_batch_size : Bool
  model_type : Option String
  task : Option String
  output_hidden_states : Bool
deriving DecidableEq, Repr

/-- Modelled from the spec: the normalized compilation configuration stored
by `store_compilation_config` (`optimum/neuron/utils`, not under `src/`) —
"a hash over normalized compilation configuration (shapes, dtypes, compiler
flags)": input shapes, the dtype-determining compiler flags
`auto_cast`/`auto_cast_type`, compiler type and version, `optlevel`,
`inline_weights_to_neff`, `dynamic_batch_size`, input/output names, model
type, task and `output_hidden_states`. -/
structure CompilationConfig where
  input_shapes : List (String × List Nat)
  compiler_kwargs : CompilerKwargs
  input_names : List String
  output_names : List String
  dynamic_batch_size : Bool
  compiler_type : String
  compiler_version : String
  inline_weights_to_neff : Bool
  optlevel : String
  model_type : Option String
  task : Option String
  output_hidden_states : Bool
deriving DecidableEq, Repr

/-- `NEURON_COMPILER_TYPE` (modeling_diffusion.py line 69). -/
def NEURON_COMPILER_TYPE : String := "neuronx-cc"

/-- Modelled from the spec: `store_compilation_config` records the
normalized compilation configuration of one sub-model. -/
def store_compilation_config (input_shapes : List (String × List Nat))
    (compiler_kwargs : CompilerKwargs) (input_names output_names : List String)
    (dynamic_batch_size : Bool) (compiler_type compiler_version : String)
    (inline_weights_to_neff : Bool) (optlevel : String)
    (model_type task : Option String) (output_hidden_states : Bool) :
    CompilationConfig :=
  { input_shapes := input_shapes
    compiler_kwargs := compiler_kwargs
    input_names := input_names
    output_names := output_names
    dynamic_batch_size := dynamic_batch_size
    compiler_type := compiler_type
    compiler_version := compiler_version
    inline_weights_to_neff := inline_weights_to_neff
    optlevel := optlevel
    model_type := model_type
    task := task
    output_hidden_states := output_hidden_states }

/-- The compilation-config loop of `_export` (lines 869-894): one normalized
config per sub-model, except that sub-models whose name contains `"vae"`
are skipped (`if "vae" in name: continue  # vae configs are not cached`). -/
def compilationConfigs (models : List (String × SubmodelNeuronConfig))
    (compiler_kwargs : CompilerKwargs) (inline_weights_to_neff : Bool)
    (optlevel : String) (compiler_version : String) :
    List (String × CompilationConfig) :=
  models.filterMap (fun m =>
    if strContains m.1 "vae" then none
    else some (m.1, store_compilation_config m.2.input_shapes compiler_kwargs
      m.2.inputs m.2.outputs m.2.dynamic_batch_size NEURON_COMPILER_TYPE
      compiler_version inline_weights_to_neff optlevel m.2.model_type m.2.task
      m.2.output_hidden_states))

/-- The cache key domain. -/
abbrev CacheKey := List (String × CompilationConfig)

/-- Modelled from the spec: `build_cache_config` (hub_cache_utils, not under
`src/`) combines the per-sub-model compilation configs into the single cache
config that is hashed. -/
def build_cache_config (compilation_configs : List (String × CompilationConfig)) :
    CacheKey :=
  compilation_configs

/-- Modelled from the spec: `ModelCacheEntry(...).hash` (hub_cache_utils, not
under `src/`) digests the cache config; the digest is modelled as injective,
the canonical cache config standing for its own hash. -/
def cacheEntryHash (cache_config : CacheKey) : CacheKey :=
  cache_config

/-- The cache key computed by `_export` (lines 896-900) for given sub-model
neuron configs and compilation arguments. -/
def exportCacheKey (models : List (String × SubmodelNeuronConfig))
    (compiler_kwargs : CompilerKwargs) (inline_weights_to_neff : Bool)
    (optlevel : String) (compiler_version : String) : CacheKey :=
  cacheEntryHash (build_cache_config
    (compilationConfigs models compiler_kwargs inline_weights_to_neff optlevel
      compiler_version))

/-- C1 counterexample: two exports whose sub-models differ only in the VAE
decoder's input shapes produce the same cache key, because the `_export`
loop skips every sub-model whose name contains `"vae"`
(`if "vae" in name: continue  # vae configs are not cached`, lines 872-873).
This refutes the claim that the key covers every sub-model and that any
change to a sub-model's shapes changes the key. -/
theorem C1_counterexample :
    (exportCacheKey
        [("unet", ⟨[("sample", [1, 4, 64, 64])], ["sample"], ["out_sample"],
          false, some "unet", some "semantic-segmentation", false⟩),
         ("vae_decoder", ⟨[("latent_sample", [1, 4, 64, 64])], ["latent_sample"],
          ["sample"], false, none, none, false⟩)]
        (mkCompilerKwargs (some "matmul") (some "bf16")) true "2" "2.15.0"
      = exportCacheKey
        [("unet", ⟨[("sample", [1, 4, 64, 64])], ["sample"], ["out_sample"],
          false, some "unet", some "semantic-segmentation", false⟩),
         ("vae_decoder", ⟨[("latent_sample", [1, 4, 128, 128])], ["latent_sample"],
          ["sample"], false, none, none, false⟩)]
        (mkCompilerKwargs (some "matmul") (some "bf16")) true "2" "2.15.0")
    ∧ ((⟨[("latent_sample", [1, 4, 64, 64])], ["latent_sample"], ["sample"],
          false, none, none, false⟩ : SubmodelNeuronConfig)
        ≠ ⟨[("latent_sample", [1, 4, 128, 128])], ["latent_sample"], ["sample"],
          false, none, none, false⟩) := by
  exact ⟨by decide, by decide⟩

/-- C1 amended: the cache key is a hash (modelled as an injective digest) of
the normalized compilation configurations of every non-VAE sub-model of the
pipeline: two exports agree on the key iff they agree on those normalized
configurations; a VAE sub-model's configuration never enters the key; and
for a non-VAE sub-model the key determines the sub-model's shapes,
input/output names, dtype flags (`auto_cast`/`auto_cast_type`),
`inline_weights_to_neff`, `optlevel` and compiler version. -/
theorem C1_cache_key_normalized (m m' : List (String × SubmodelNeuronConfig))
    (kw kw' : CompilerKwargs) (iw iw' : Bool) (ol cv ol' cv' : String) :
    (exportCacheKey m kw iw ol cv = exportCacheKey m' kw' iw' ol' cv' ↔
      compilationConfigs m kw iw ol cv = compilationConfigs m' kw' iw' ol' cv')
    ∧ (∀ name nc, strContains name "vae" = true →
        exportCacheKey ((name, nc) :: m) kw iw ol cv = exportCacheKey m kw iw ol cv)
    ∧ (∀ name nc nc', strContains name "vae" = false →
        exportCacheKey [(name, nc)] kw iw ol cv =
          exportCacheKey [(name, nc')] kw' iw' ol' cv' →
        nc = nc' ∧ kw = kw' ∧ iw = iw' ∧ ol = ol' ∧ cv = cv') := by
  refine ⟨Iff.rfl, ?_, ?_⟩
  · intro name nc h
    simp [exportCacheKey, cacheEntryHash, build_cache_config, compilationConfigs,
      List.filterMap_cons, h]
  · intro name nc nc' hname h
    simp only [exportCacheKey, cacheEntryHash, build_cache_config, compilationConfigs,
      List.filterMap_cons, hname, Bool.false_eq_true, if_false, List.filterMap_nil] at h
    obtain ⟨h1, -⟩ := List.cons.injEq _ _ _ _ ▸ h
    obtain ⟨-, h2⟩ := Prod.mk.injEq _ _ _ _ ▸ h1
    cases nc
    cases nc'
    simp only [store_compilation_config, CompilationConfig.mk.injEq] at h2
    obtain ⟨e1, e2, e3, e4, e5, -, e6, e7, e8, e9, e10, e11⟩ := h2
    exact ⟨by simp_all, e2, e7, e8, e6⟩

/-- Witness for C1 amended: a VAE encoder entry leaves a concrete cache key
unchanged. -/
theorem C1_cache_key_normalized_witness :
    exportCacheKey
        [("vae_encoder", ⟨[("sample", [1, 3, 512, 512])], ["sample"],
          ["latent_sample"], false, none, none, false⟩)]
        (mkCompilerKwargs (some "matmul") (some "bf16")) true "2" "2.15.0"
      = exportCacheKey [] (mkCompilerKwargs (some "matmul") (some "bf16"))
        true "2" "2.15.0" :=
  (C1_cache_key_normalized [] [] (mkCompilerKwargs (some "matmul") (some "bf16"))
      (mkCompilerKwargs (some "matmul") (some "bf16")) true true "2" "2.15.0"
      "2" "2.15.0").2.1
    "vae_encoder"
    ⟨[("sample", [1, 3, 512, 512])], ["sample"], ["latent_sample"], false, none,
      none, false⟩
    (by decide)

/-- The observable outcome of `_export` with respect to caching:
whether `main_export` was invoked and, if the pipeline was loaded from the
compile cache instead, which cache entry it was loaded from. -/
structure ExportOutcome where
  main_export_called : Bool
  loaded_from : Option CacheKey
deriving DecidableEq

/-- The cache-lookup control flow of `_export` (lines 839-951): when
`disable_neuron_cache` is false the cache key is derived and looked up
(`cache_exist = compile_cache.download_folder(...)`); on a hit the pipeline
is loaded from the cached directory (`cls.from_pretrained(model_cache_dir,...)`)
and `main_export` is never called; on a miss, or when the cache is disabled,
`main_export` compiles the models. -/
def neuronStableDiffusionExport (disable_neuron_cache : Bool)
    (models : List (String × SubmodelNeuronConfig)) (compiler_kwargs : CompilerKwargs)
    (inline_weights_to_neff : Bool) (optlevel compiler_version : String)
    (cache_has : CacheKey → Bool) : ExportOutcome :=
  let cache_exist :=
    if disable_neuron_cache = false then
      cache_has (exportCacheKey models compiler_kwargs inline_weights_to_neff
        optlevel compiler_version)
    else false
  if cache_exist then
    { main_export_called := false
      loaded_from := some (exportCacheKey models compiler_kwargs
        inline_weights_to_neff optlevel compiler_version) }
  else
    { main_export_called := true, loaded_from := none }

/-- C2: in `_export` with `disable_neuron_cache=False`, a cache hit on the
derived key loads the pipeline from the cached directory with no call to
`main_export`; a cache miss, or `disable_neuron_cache=True`, invokes
`main_export`. -/
theorem C2_cache_lookup (disable : Bool) (models : List (String × SubmodelNeuronConfig))
    (kw : CompilerKwargs) (iw : Bool) (ol cv : String) (cache_has : CacheKey → Bool) :
    (disable = false →
      cache_has (exportCacheKey models kw iw ol cv) = true →
      (neuronStableDiffusionExport disable models kw iw ol cv cache_has).main_export_called
          = false ∧
        (neuronStableDiffusionExport disable models kw iw ol cv cache_has).loaded_from
          = some (exportCacheKey models kw iw ol cv))
    ∧ (disable = false →
        cache_has (exportCacheKey models kw iw ol cv) = false →
        (neuronStableDiffusionExport disable models kw iw ol cv cache_has).main_export_called
            = true ∧
          (neuronStableDiffusionExport disable models kw iw ol cv cache_has).loaded_from
            = none)
    ∧ (disable = true →
        (neuronStableDiffusionExport disable models kw iw ol cv cache_has).main_export_called
            = true ∧
          (neuronStableDiffusionExport disable models kw iw ol cv cache_has).loaded_from
            = none) := by
  refine ⟨?_, ?_, ?_⟩
  · intro hd hc
    subst hd
    simp [neuronStableDiffusionExport, hc]
  · intro hd hc
    subst hd
    simp [neuronStableDiffusionExport, hc]
  · intro hd
    subst hd
    simp [neuronStableDiffusionExport]

/-- Witness for C2 at a concrete input: with the cache enabled and a hit,
`main_export` is not called. -/
theorem C2_cache_lookup_witness :
    (neuronStableDiffusionExport false []
        (mkCompilerKwargs (some "matmul") (some "bf16")) true "2" "2.15.0"
        (fun _ => true)).main_export_called = false ∧
      (neuronStableDiffusionExport false []
        (mkCompilerKwargs (some "matmul") (some "bf16")) true "2" "2.15.0"
        (fun _ => true)).loaded_from
        = some (exportCacheKey [] (mkCompilerKwargs (some "matmul") (some "bf16"))
          true "2" "2.15.0") :=
  (C2_cache_lookup false [] (mkCompilerKwargs (some "matmul") (some "bf16"))
      true "2" "2.15.0" (fun _ => true)).1 rfl rfl

/-! ### `NeuronMultiControlNetModel.forward`
(modeling_diffusion.py lines 1177-1210).  Tensors are any type `α` with an
addition (the `+` used by the source); a controlnet module is an opaque
function of `(sample, timestep, encoder_hidden_states, image, scale)`
returning its down-block samples and mid-block sample; conditioning scales
have their own type `σ`. -/

/-- `ControlNetOutput(down_block_res_samples=..., mid_block_res_sample=...)`
versus the bare tuple returned when `return_dict=False`. -/
inductive MCNOutput (α : Type _)
  | controlNetOutput (down_block_res_samples : List α) (mid_block_res_sample : α)
  | tuple (down_block_res_samples : List α) (mid_block_res_sample : α)
deriving DecidableEq

/-- The merge of one controlnet's output into the accumulators (lines
1196-1203): `[samples_prev + samples_curr for samples_prev, samples_curr in
zip(down_block_res_samples, down_samples)]` and
`mid_block_res_sample += mid_sample`. -/
def mergeStep [Add α] (acc o : List α × α) : List α × α :=
  ((acc.1.zip o.1).map (fun p => p.1 + p.2), acc.2 + o.2)

/-- `inputs = (sample, timestep, encoder_hidden_states, image, scale);
down_samples, mid_sample = controlnet(*inputs)` for one `(image, scale,
controlnet)` triple of the loop. -/
def netApply (sample timestep encoder_hidden_states : α)
    (t : α × σ × (α → α → α → α → σ → List α × α)) : List α × α :=
  t.2.2 sample timestep encoder_hidden_states t.1 t.2.1

/-- One loop iteration with `i > 0`. -/
def mcnStep [Add α] (sample timestep encoder_hidden_states : α)
    (acc : List α × α) (t : α × σ × (α → α → α → α → σ → List α × α)) :
    List α × α :=
  mergeStep acc (netApply sample timestep encoder_hidden_states t)

/-- `NeuronMultiControlNetModel.forward` (lines 1177-1210).  The loop runs
over `zip(controlnet_cond, conditioning_scale, self.nets)` (which truncates
to the shortest argument, like Python's `zip`); iteration `i == 0`
initializes the accumulators, later iterations merge.  When the zip is
empty the Python body would fail on unbound locals, modelled as `none`. -/
def multiControlNetForward [Add α] (sample timestep encoder_hidden_states : α)
    (controlnet_cond : List α) (conditioning_scale : List σ)
    (nets : List (α → α → α → α → σ → List α × α)) (return_dict : Bool) :
    Option (MCNOutput α) :=
  match controlnet_cond.zip (conditioning_scale.zip nets) with
  | [] => none
  | t0 :: rest =>
    let first := netApply sample timestep encoder_hidden_states t0
    let merged := rest.foldl (mcnStep sample timestep encoder_hidden_states) first
    if return_dict then some (.controlNetOutput merged.1 merged.2)
    else some (.tuple merged.1 merged.2)

/-- The raw per-controlnet outputs of the loop, in loop order. -/
def mcnNetOutputs (sample timestep encoder_hidden_states : α)
    (controlnet_cond : List α) (conditioning_scale : List σ)
    (nets : List (α → α → α → α → σ → List α × α)) : List (List α × α) :=
  (controlnet_cond.zip (conditioning_scale.zip nets)).map
    (netApply sample timestep encoder_hidden_states)

theorem zipAdd_getD [AddCommMonoid α] :
    ∀ (a b : List α) (j : Nat), j < a.length → j < b.length →
      ((a.zip b).map (fun p => p.1 + p.2)).getD j 0 = a.getD j 0 + b.getD j 0 := by
  intro a
  induction a with
  | nil =>
    intro b j h
    simp at h
  | cons x xs ih =>
    intro b j h1 h2
    match b, j with
    | y :: ys, 0 => simp
    | y :: ys, j + 1 =>
      simp only [List.zip_cons_cons, List.map_cons, List.getD_cons_succ]
      exact ih ys j (Nat.lt_of_succ_lt_succ h1) (Nat.lt_of_succ_lt_succ h2)

theorem mergeStep_fst_length [AddCommMonoid α] (acc o : List α × α) (L : Nat)
    (h1 : acc.1.length = L) (h2 : o.1.length = L) :
    (mergeStep acc o).1.length = L := by
  simp [mergeStep, List.length_zip, h1, h2]

theorem mcnFold_spec [AddCommMonoid α] (L : Nat) :
    ∀ (rest : List (List α × α)) (o0 : List α × α), o0.1.length = L →
      (∀ o ∈ rest, o.1.length = L) →
      (rest.foldl mergeStep o0).2 = ((o0 :: rest).map Prod.snd).sum ∧
        (rest.foldl mergeStep o0).1.length = L ∧
        (∀ j, j < L → (rest.foldl mergeStep o0).1.getD j 0 =
          ((o0 :: rest).map (fun o => o.1.getD j 0)).sum) := by
  intro rest
  induction rest with
  | nil =>
    intro o0 h0 _
    refine ⟨by simp, h0, ?_⟩
    intro j hj
    simp
  | cons o1 tl ih =>
    intro o0 h0 hmem
    have h1 : o1.1.length = L := hmem o1 (List.mem_cons_self _ _)
    have hmerged : (mergeStep o0 o1).1.length = L := mergeStep_fst_length o0 o1 L h0 h1
    have htl : ∀ o ∈ tl, o.1.length = L := fun o ho => hmem o (List.mem_cons_of_mem _ ho)
    obtain ⟨hsum, hlen, hget⟩ := ih (mergeStep o0 o1) hmerged htl
    simp only [List.foldl_cons]
    refine ⟨?_, hlen, ?_⟩
    · rw [hsum]
      simp [mergeStep, add_assoc]
    · intro j hj
      rw [hget j hj]
      simp only [List.map_cons, List.sum_cons]
      have : (mergeStep o0 o1).1.getD j 0 = o0.1.getD j 0 + o1.1.getD j 0 := by
        simp only [mergeStep]
        exact zipAdd_getD o0.1 o1.1 j (h0 ▸ hj) (h1 ▸ hj)
      rw [this, add_assoc]

/-- C5: `NeuronMultiControlNetModel.forward` over `N ≥ 1` controlnets with
`N` conditioning images and `N` scales returns down-block residuals that
are, position by position, the sums across all controlnets of their
down-block samples, and a mid-block residual that is the sum of the
mid-block samples; with `return_dict=True` the same values come back
wrapped in a `ControlNetOutput`. -/
theorem C5_multi_controlnet_sum [AddCommMonoid α] (sample timestep ehs : α)
    (cond : List α) (scales : List σ)
    (nets : List (α → α → α → α → σ → List α × α)) (L : Nat)
    (hlen1 : cond.length = nets.length) (hlen2 : scales.length = nets.length)
    (hne : nets ≠ [])
    (hL : ∀ o ∈ mcnNetOutputs sample timestep ehs cond scales nets,
      o.1.length = L) :
    ∃ downs mid,
      multiControlNetForward sample timestep ehs cond scales nets false =
        some (.tuple downs mid) ∧
      multiControlNetForward sample timestep ehs cond scales nets true =
        some (.controlNetOutput downs mid) ∧
      mid = ((mcnNetOutputs sample timestep ehs cond scales nets).map Prod.snd).sum ∧
      downs.length = L ∧
      (∀ j, j < L → downs.getD j 0 =
        ((mcnNetOutputs sample timestep ehs cond scales nets).map
          (fun o => o.1.getD j 0)).sum) := by
  have hzlen : (cond.zip (scales.zip nets)).length = nets.length := by
    simp [List.length_zip, hlen1, hlen2]
  cases hz : cond.zip (scales.zip nets) with
  | nil =>
    exfalso
    rw [hz] at hzlen
    exact hne (List.length_eq_zero.mp hzlen.symm)
  | cons t0 rest =>
    have houts : mcnNetOutputs sample timestep ehs cond scales nets =
        netApply sample timestep ehs t0 ::
          rest.map (netApply sample timestep ehs) := by
      rw [mcnNetOutputs, hz, List.map_cons]
    have hfold : rest.foldl (mcnStep sample timestep ehs)
        (netApply sample timestep ehs t0) =
        (rest.map (netApply sample timestep ehs)).foldl mergeStep
          (netApply sample timestep ehs t0) := by
      rw [List.foldl_map]
      rfl
    have h0 : (netApply sample timestep ehs t0).1.length = L := by
      refine hL _ ?_
      rw [houts]
      exact List.mem_cons_self _ _
    have hrest : ∀ o ∈ rest.map (netApply sample timestep ehs), o.1.length = L := by
      intro o ho
      refine hL _ ?_
      rw [houts]
      exact List.mem_cons_of_mem _ ho
    obtain ⟨hsum, hlen, hget⟩ := mcnFold_spec L
      (rest.map (netApply sample timestep ehs)) (netApply sample timestep ehs t0)
      h0 hrest
    refine ⟨(rest.foldl (mcnStep sample timestep ehs) (netApply sample timestep ehs t0)).1,
      (rest.foldl (mcnStep sample timestep ehs) (netApply sample timestep ehs t0)).2,
      ?_, ?_, ?_, ?_, ?_⟩
    · simp only [multiControlNetForward, hz]
      rw [if_neg (by simp)]
    · simp only [multiControlNetForward, hz]
      rw [if_pos trivial]
    · rw [hfold, hsum, houts]
    · rw [hfold]
      exact hlen
    · intro j hj
      rw [hfold, hget j hj, houts]

/-- Witness for C5 at a concrete input: two integer-valued controlnets over
one down-block position. -/
theorem C5_multi_controlnet_sum_witness :
    ∃ downs mid,
      multiControlNetForward (1 : Int) 2 3 [10, 20] [(1 : Int), 1]
        [fun _ _ _ im _ => ([im], im), fun _ _ _ im sc => ([im + sc], sc)]
        false = some (.tuple downs mid) ∧
      multiControlNetForward (1 : Int) 2 3 [10, 20] [(1 : Int), 1]
        [fun _ _ _ im _ => ([im], im), fun _ _ _ im sc => ([im + sc], sc)]
        true = some (.controlNetOutput downs mid) ∧
      mid = ((mcnNetOutputs (1 : Int) 2 3 [10, 20] [(1 : Int), 1]
        [fun _ _ _ im _ => ([im], im), fun _ _ _ im sc => ([im + sc], sc)]).map
          Prod.snd).sum ∧
      downs.length = 1 ∧
      (∀ j, j < 1 → downs.getD j 0 =
        ((mcnNetOutputs (1 : Int) 2 3 [10, 20] [(1 : Int), 1]
          [fun _ _ _ im _ => ([im], im), fun _ _ _ im sc => ([im + sc], sc)]).map
            (fun o => o.1.getD j 0)).sum) :=
  C5_multi_controlnet_sum 1 2 3 [10, 20] [(1 : Int), 1]
    [fun _ _ _ im _ => ([im], im), fun _ _ _ im sc => ([im + sc], sc)] 1
    rfl rfl (by simp) (by decide)

/-! ### Tensors
A shallow model of the torch tensors handled by the forward adapters:
dtype, shape, and integer payload (the adapters only ever convert dtypes,
broadcast scalars and compare against ones, so integer payloads suffice). -/

inductive DType
  | float
  | long
  | int
deriving DecidableEq, Repr

structure Tensor where
  dtype : DType
  shape : List Nat
  data : List Int
deriving DecidableEq, Repr

/-- `t.float()`: cast to float32 (payloads are preserved). -/
def Tensor.float (t : Tensor) : Tensor :=
  { t with dtype := .float }

/-- `t.to(torch.long)`: cast to int64 (payloads are preserved). -/
def Tensor.toLong (t : Tensor) : Tensor :=
  { t with dtype := .long }

/-- `t.expand(shape)`: broadcast the (scalar) value over the target shape. -/
def Tensor.expand (t : Tensor) (shape : List Nat) : Tensor :=
  { t with shape := shape
           data := List.replicate (shape.foldl (· * ·) 1) (t.data.headD 0) }

/-- `torch.ones_like(t)`. -/
def ones_like (t : Tensor) : Tensor :=
  { t with data := t.data.map (fun _ => 1) }

/-- `torch.equal(a, b)`: same size and same elements. -/
def torch_equal (a b : Tensor) : Bool :=
  decide (a.shape = b.shape) && decide (a.data = b.data)

/-! ### `NeuronModelUnet.forward`
(modeling_diffusion.py lines 1039-1064).  The compiled module is an opaque
function of its positional inputs; a Python `None` positional argument is
`Option.none`. -/

/-- `NeuronModelUnet.forward`: reshapes the arguments to the compiled
module's fixed positional signature and invokes the module. -/
def unetForward (model : List (Option Tensor) → β)
    (sample timestep encoder_hidden_states : Tensor)
    (added_cond_kwargs : List (String × Tensor))
    (timestep_cond : Option Tensor)
    (down_block_additional_residuals : Option (List Tensor))
    (mid_block_additional_residual : Option Tensor) : β :=
  let timestep := timestep.float.expand [sample.shape.headD 0]
  let inputs := [some sample, some timestep, some encoder_hidden_states]
  let inputs :=
    match timestep_cond with
    | some tc => inputs ++ [some tc]
    | none => inputs
  let inputs :=
    match mid_block_additional_residual with
    | some mb => inputs ++ [some mb]
    | none => inputs
  let inputs :=
    match down_block_additional_residuals with
    | some ds => inputs ++ ds.map some
    | none => inputs
  let inputs :=
    if added_cond_kwargs.isEmpty then inputs
    else inputs ++ [added_cond_kwargs.lookup "text_embeds",
      added_cond_kwargs.lookup "time_ids"]
  model inputs

/-- C7: `NeuronModelUnet.forward` converts the timestep to float and expands
it to a 1-D tensor of length `B` (the sample's batch size), and passes to
the compiled module exactly `(sample, timestep, encoder_hidden_states)`
followed, when present, by `timestep_cond`, then
`mid_block_additional_residual`, then each `down_block_additional_residual`
in order, then `text_embeds` and `time_ids` extracted from
`added_cond_kwargs`. -/
theorem C7_unet_forward_inputs (model : List (Option Tensor) → β)
    (sample timestep encoder_hidden_states : Tensor)
    (added_cond_kwargs : List (String × Tensor))
    (timestep_cond : Option Tensor)
    (down_block_additional_residuals : Option (List Tensor))
    (mid_block_additional_residual : Option Tensor)
    (B : Nat) (restShape : List Nat) (hshape : sample.shape = B :: restShape) :
    unetForward model sample timestep encoder_hidden_states added_cond_kwargs
        timestep_cond down_block_additional_residuals mid_block_additional_residual
      = model ([some sample, some (timestep.float.expand [B]),
          some encoder_hidden_states]
        ++ timestep_cond.toList.map some
        ++ mid_block_additional_residual.toList.map some
        ++ (down_block_additional_residuals.getD []).map some
        ++ (if added_cond_kwargs = [] then []
            else [added_cond_kwargs.lookup "text_embeds",
              added_cond_kwargs.lookup "time_ids"]))
    ∧ (timestep.float.expand [B]).dtype = .float
    ∧ (timestep.float.expand [B]).shape = [B] := by
  refine ⟨?_, rfl, rfl⟩
  have hB : sample.shape.headD 0 = B := by rw [hshape]; rfl
  unfold unetForward
  rw [hB]
  cases timestep_cond <;> cases mid_block_additional_residual <;>
    cases down_block_additional_residuals <;>
      rcases hk : added_cond_kwargs with - | ⟨p, t⟩ <;>
        simp [List.append_assoc, List.isEmpty]

/-- Witness for C7 at a concrete input: batch size 2, with a timestep
condition and one down-block residual present. -/
theorem C7_unet_forward_inputs_witness :
    (unetForward (fun l => l) ⟨.float, [2, 4, 64, 64], [0]⟩ ⟨.long, [], [981]⟩
        ⟨.float, [2, 77, 768], [1]⟩ [("text_embeds", ⟨.float, [2, 1280], [2]⟩)]
        (some ⟨.float, [2, 256], [3]⟩) (some [⟨.float, [2, 320], [4]⟩]) none
      = ([some ⟨.float, [2, 4, 64, 64], [0]⟩,
          some ((⟨.long, [], [981]⟩ : Tensor).float.expand [2]),
          some ⟨.float, [2, 77, 768], [1]⟩]
        ++ (some (⟨.float, [2, 256], [3]⟩ : Tensor)).toList.map some
        ++ (none : Option Tensor).toList.map some
        ++ ((some [(⟨.float, [2, 320], [4]⟩ : Tensor)]).getD []).map some
        ++ (if ([("text_embeds", (⟨.float, [2, 1280], [2]⟩ : Tensor))] :
              List (String × Tensor)) = [] then []
            else [([("text_embeds", (⟨.float, [2, 1280], [2]⟩ : Tensor))] :
                List (String × Tensor)).lookup "text_embeds",
              ([("text_embeds", (⟨.float, [2, 1280], [2]⟩ : Tensor))] :
                List (String × Tensor)).lookup "time_ids"])))
    ∧ ((⟨.long, [], [981]⟩ : Tensor).float.expand [2]).dtype = .float
    ∧ ((⟨.long, [], [981]⟩ : Tensor).float.expand [2]).shape = [2] :=
  C7_unet_forward_inputs (fun l => l) ⟨.float, [2, 4, 64, 64], [0]⟩
    ⟨.long, [], [981]⟩ ⟨.float, [2, 77, 768], [1]⟩
    [("text_embeds", ⟨.float, [2, 1280], [2]⟩)] (some ⟨.float, [2, 256], [3]⟩)
    (some [⟨.float, [2, 320], [4]⟩]) none 2 [4, 64, 64] rfl

/-! ### `NeuronModelTextEncoder.forward`
(modeling_diffusion.py lines 1000-1024). -/

/-- The configuration bits inspected by the second assertion:
`self.config.output_hidden_states` and
`self.config.neuron.get("output_hidden_states")`. -/
structure TextEncoderConfig where
  output_hidden_states : Bool
  neuron_output_hidden_states : Bool
deriving DecidableEq

/-- The return value: the bare compiled-module outputs, or — with
`return_dict` — a `ModelOutput(dict(zip(self.neuron_config.outputs, outputs)))`. -/
inductive TEOutput
  | plain (outputs : List Tensor)
  | modelOutput (outputs : List (String × Tensor))
deriving DecidableEq

/-- `NeuronModelTextEncoder.forward`: asserts the attention mask is all
ones (`torch.equal(torch.ones_like(attention_mask), attention_mask)`),
asserts `output_hidden_states` matches the compiled configuration, casts
`input_ids` to `torch.long` and invokes the compiled module on that single
input. -/
def textEncoderForward (config : TextEncoderConfig)
    (neuron_config_outputs : List String) (model : List Tensor → List Tensor)
    (input_ids : Tensor) (attention_mask : Option Tensor)
    (output_hidden_states return_dict : Option Bool) :
    Except String TEOutput :=
  if (match attention_mask with
      | some m => ! torch_equal (ones_like m) m
      | none => false) = true then
    .error "attention_mask is expected to be only all ones."
  else if (output_hidden_states.getD false &&
      ! (config.output_hidden_states || config.neuron_output_hidden_states)) = true then
    .error "output_hidden_states is expected to be False since the model was compiled without hidden_states as output."
  else
    let input_ids := input_ids.toLong
    let outputs := model [input_ids]
    if return_dict.getD false then
      .ok (.modelOutput (neuron_config_outputs.zip outputs))
    else
      .ok (.plain outputs)

theorem map_one_eq_self (l : List Int) :
    (l.map (fun _ => (1 : Int)) = l) ↔ (l.all (fun x => x = 1) = true) := by
  induction l with
  | nil => simp
  | cons x xs ih =>
    simp only [List.map_cons, List.cons.injEq, List.all_cons, Bool.and_eq_true,
      decide_eq_true_eq, ih]
    constructor
    · rintro ⟨h1, h2⟩
      exact ⟨h1.symm, h2⟩
    · rintro ⟨h1, h2⟩
      exact ⟨h1.symm, h2⟩

theorem torch_equal_ones_like (m : Tensor) :
    torch_equal (ones_like m) m = m.data.all (fun x => x = 1) := by
  by_cases h : m.data.all (fun x => x = 1) = true
  · simp [torch_equal, ones_like, (map_one_eq_self m.data).mpr h, h]
  · have hmap : ¬ (m.data.map (fun _ => (1 : Int)) = m.data) := fun hc =>
      h ((map_one_eq_self m.data).mp hc)
    have hrep : ¬ (List.replicate m.data.length (1 : Int) = m.data) := by
      rw [← List.map_const']
      exact hmap
    simp only [Bool.not_eq_true] at h
    simp [torch_equal, ones_like, hrep, h]

/-- C10: `NeuronModelTextEncoder.forward` with a non-`None` attention mask
raises an `AssertionError` unless every element of the mask equals `1`;
when the mask is `None` or all ones, and `output_hidden_states` matches the
compiled configuration, the assertions pass and the compiled module is
invoked with `input_ids` cast to 64-bit integers as its only input. -/
theorem C10_text_encoder_forward (config : TextEncoderConfig)
    (neuron_config_outputs : List String) (model : List Tensor → List Tensor)
    (input_ids : Tensor) (attention_mask : Option Tensor)
    (output_hidden_states return_dict : Option Bool) :
    (∀ m, attention_mask = some m → m.data.all (fun x => x = 1) = false →
      textEncoderForward config neuron_config_outputs model input_ids
          attention_mask output_hidden_states return_dict =
        .error "attention_mask is expected to be only all ones.")
    ∧ ((∀ m, attention_mask = some m → m.data.all (fun x => x = 1) = true) →
      (output_hidden_states = some true →
        (config.output_hidden_states || config.neuron_output_hidden_states) = true) →
      textEncoderForward config neuron_config_outputs model input_ids
          attention_mask output_hidden_states return_dict =
        (if return_dict.getD false then
          .ok (.modelOutput (neuron_config_outputs.zip (model [input_ids.toLong])))
        else
          .ok (.plain (model [input_ids.toLong])))) := by
  constructor
  · intro m hm hall
    subst hm
    rw [textEncoderForward]
    rw [if_pos (by rw [torch_equal_ones_like, hall]; rfl)]
  · intro hmask hcfg
    have hsecond : (output_hidden_states.getD false &&
        ! (config.output_hidden_states || config.neuron_output_hidden_states)) = false := by
      cases hO : output_hidden_states with
      | none => rfl
      | some b =>
        cases b with
        | false => rfl
        | true =>
          rw [hcfg hO]
          rfl
    cases hA : attention_mask with
    | none =>
      rw [textEncoderForward]
      simp only [hsecond, Bool.false_eq_true, if_false]
    | some m =>
      rw [hA] at hmask
      have hc1 : (! torch_equal (ones_like m) m) = false := by
        rw [torch_equal_ones_like, hmask m rfl]
        rfl
      rw [textEncoderForward]
      simp only [hc1, hsecond, Bool.false_eq_true, if_false]

/-- Witness for C10 at a concrete input: an all-ones attention mask, hidden
states off, `return_dict` unset. -/
theorem C10_text_encoder_forward_witness :
    textEncoderForward ⟨false, false⟩ ["last_hidden_state"] (fun l => l)
        ⟨.int, [1, 3], [5, 6, 7]⟩ (some ⟨.long, [1, 3], [1, 1, 1]⟩) none none =
      (if (none : Option Bool).getD false then
        .ok (.modelOutput ((["last_hidden_state"] : List String).zip
          ((fun l => l) [(⟨.int, [1, 3], [5, 6, 7]⟩ : Tensor).toLong])))
      else
        .ok (.plain ((fun l => l) [(⟨.int, [1, 3], [5, 6, 7]⟩ : Tensor).toLong]))) :=
  (C10_text_encoder_forward ⟨false, false⟩ ["last_hidden_state"] (fun l => l)
      ⟨.int, [1, 3], [5, 6, 7]⟩ (some ⟨.long, [1, 3], [1, 1, 1]⟩) none none).2
    (by
      intro m hm
      injection hm with h
      subst h
      decide)
    (by
      intro h
      exact absurd h (by decide))

/-! ### Injectivity of decimal printing
`_save_pretrained` names the i-th ControlNet directory
`f"controlnet_{str(idx)}"`; recovering the ControlNet count after a reload
needs those names to be pairwise distinct, i.e. `Nat.repr` injective. -/

/-- The decimal digit characters of `n`, most significant first
(`[]` for `0`). -/
def decChars (n : Nat) : List Char :=
  if h : n = 0 then []
  else decChars (n / 10) ++ [Nat.digitChar (n % 10)]
termination_by n
decreasing_by exact Nat.div_lt_self (Nat.pos_of_ne_zero h) (by decide)

theorem decChars_zero : decChars 0 = [] := by
  rw [decChars]
  simp

theorem decChars_pos (n : Nat) (h : n ≠ 0) :
    decChars n = decChars (n / 10) ++ [Nat.digitChar (n % 10)] := by
  rw [decChars]
  simp [h]

theorem decChars_ne_nil (n : Nat) (h : n ≠ 0) : decChars n ≠ [] := by
  rw [decChars_pos n h]
  simp

theorem toDigitsCore_eq_decChars :
    ∀ (f n : Nat) (l : List Char), n < f →
      Nat.toDigitsCore 10 f n l =
        (if n = 0 then [Nat.digitChar 0] else decChars n) ++ l := by
  intro f
  induction f with
  | zero =>
    intro n l h
    exact absurd h (Nat.not_lt_zero n)
  | succ f ih =>
    intro n l h
    by_cases h0 : n / 10 = 0
    · have hred : Nat.toDigitsCore 10 (f + 1) n l = Nat.digitChar (n % 10) :: l := by
        simp [Nat.toDigitsCore, h0]
      rw [hred]
      by_cases hn : n = 0
      · subst hn
        simp
      · rw [if_neg hn, decChars_pos n hn]
        have hz : decChars (n / 10) = [] := by
          rw [h0]
          exact decChars_zero
        rw [hz]
        simp
    · have hn : n ≠ 0 := fun hc => h0 (by simp [hc])
      have hred : Nat.toDigitsCore 10 (f + 1) n l =
          Nat.toDigitsCore 10 f (n / 10) (Nat.digitChar (n % 10) :: l) := by
        simp [Nat.toDigitsCore, h0]
      have hlt : n / 10 < f := by
        have h1 : n / 10 < n := Nat.div_lt_self (Nat.pos_of_ne_zero hn) (by decide)
        omega
      rw [hred, ih (n / 10) _ hlt, if_neg h0, if_neg hn, decChars_pos n hn]
      simp

theorem repr_eq_decChars (n : Nat) :
    Nat.repr n = (if n = 0 then [Nat.digitChar 0] else decChars n).asString := by
  rw [Nat.repr, Nat.toDigits, toDigitsCore_eq_decChars (n + 1) n [] (Nat.lt_succ_self n)]
  rw [List.append_nil]

theorem digitChar_inj_lt10 :
    ∀ a b : Fin 10, Nat.digitChar a.val = Nat.digitChar b.val → a = b := by
  decide

theorem digitChar_mod_inj {n m : Nat} (h : Nat.digitChar (n % 10) = Nat.digitChar (m % 10)) :
    n % 10 = m % 10 := by
  have ha : n % 10 < 10 := Nat.mod_lt _ (by decide)
  have hb : m % 10 < 10 := Nat.mod_lt _ (by decide)
  have := digitChar_inj_lt10 ⟨n % 10, ha⟩ ⟨m % 10, hb⟩ h
  exact congrArg Fin.val this

theorem decChars_inj : ∀ n m : Nat, n ≠ 0 → m ≠ 0 → decChars n = decChars m → n = m := by
  intro n
  induction n using Nat.strong_induction_on with
  | _ n ih =>
    intro m hn hm he
    rw [decChars_pos n hn, decChars_pos m hm, ← List.concat_eq_append,
      ← List.concat_eq_append] at he
    obtain ⟨h1, h2⟩ := List.concat_inj.mp he
    have hd : n % 10 = m % 10 := digitChar_mod_inj h2
    by_cases h0 : n / 10 = 0
    · have hm0 : m / 10 = 0 := by
        by_contra hc
        refine decChars_ne_nil (m / 10) hc ?_
        rw [← h1, h0]
        exact decChars_zero
      omega
    · have hm0 : m / 10 ≠ 0 := by
        intro hc
        refine decChars_ne_nil (n / 10) h0 ?_
        rw [h1, hc]
        exact decChars_zero
      have := ih (n / 10) (Nat.div_lt_self (Nat.pos_of_ne_zero hn) (by decide))
        (m / 10) h0 hm0 h1
      omega

theorem decChars_singleton_zero {m : Nat} (hm : m ≠ 0)
    (h : [Nat.digitChar 0] = decChars m) : False := by
  rw [decChars_pos m hm] at h
  have h' : List.concat [] (Nat.digitChar 0) = List.concat (decChars (m / 10))
      (Nat.digitChar (m % 10)) := by
    simpa [List.concat_eq_append] using h
  obtain ⟨h1, h2⟩ := List.concat_inj.mp h'
  have hm10 : m / 10 = 0 := by
    by_contra hc
    exact decChars_ne_nil (m / 10) hc h1.symm
  have hmod : 0 % 10 = m % 10 := digitChar_mod_inj (by simpa using h2)
  omega

theorem natRepr_injective : Function.Injective Nat.repr := by
  intro n m h
  rw [repr_eq_decChars, repr_eq_decChars] at h
  have h' : (if n = 0 then [Nat.digitChar 0] else decChars n) =
      (if m = 0 then [Nat.digitChar 0] else decChars m) :=
    congrArg String.data h
  by_cases hn : n = 0 <;> by_cases hm : m = 0
  · omega
  · rw [if_pos hn, if_neg hm] at h'
    exact absurd h' (fun hc => decChars_singleton_zero hm hc)
  · rw [if_neg hn, if_pos hm] at h'
    exact absurd h'.symm (fun hc => decChars_singleton_zero hn hc)
  · rw [if_neg hn, if_neg hm] at h'
    exact decChars_inj n m hn hm h'

/-! ### A filesystem model for `_save_pretrained` / `_from_pretrained`
(modeling_diffusion.py lines 444-534 and 536-699).  A filesystem is an
association list from paths to abstract file contents (a `Nat` identifier
standing for the bytes); writes prepend and lookups take the first hit, so
a write shadows older entries.  Directories exist implicitly as path
prefixes (`mkdir` has no observable effect beyond the files later written). -/

abbrev FileSystem := List (FsPath × Nat)

/-- Association lookup: the first entry for the path wins. -/
def FileSystem.read : FileSystem → FsPath → Option Nat
  | [], _ => none
  | (k, v) :: es, p => if p = k then some v else FileSystem.read es p

/-- `Path.is_file`. -/
def FileSystem.isFile (fs : FileSystem) (p : FsPath) : Bool :=
  (fs.read p).isSome

def FileSystem.write (fs : FileSystem) (p : FsPath) (c : Nat) : FileSystem :=
  (p, c) :: fs

/-- `shutil.copyfile(src_path, dst_path)`, guarded by
`if src_path.is_file()` like the source's copy loop. -/
def FileSystem.copy (fs : FileSystem) (src dst : FsPath) : FileSystem :=
  match fs.read src with
  | some c => fs.write dst c
  | none => fs

/-- Strip a leading path from another: `some rest` when `p = d ++ rest`. -/
def stripPre : FsPath → FsPath → Option FsPath
  | [], p => some p
  | _ :: _, [] => none
  | a :: as, b :: bs => if a = b then stripPre as bs else none

/-- The names occurring as a child directory component right below `d`
(one occurrence per file underneath, before deduplication). -/
def FileSystem.childNames (fs : FileSystem) (d : FsPath) : List String :=
  fs.filterMap (fun e =>
    match stripPre d e.1 with
    | some (x :: _ :: _) => some x
    | _ => none)

/-- `[path.name for path in d.iterdir() if path.is_dir()]`: the distinct
child directory names below `d` (scan order is OS-dependent in Python; the
model fixes one order). -/
def FileSystem.subdirs (fs : FileSystem) (d : FsPath) : List String :=
  (fs.childNames d).dedup

/-- `NEURON_FILE_NAME` from `optimum/neuron/utils` (not under `src/`; both
save and load use the same constant as their default file name). -/
def NEURON_FILE_NAME : String := "model.neuron"

/-- `CONFIG_NAME` (diffusers) and `sub_component_config_name`, both
`"config.json"`. -/
def CONFIG_NAME : String := "config.json"

/-- `model_and_config_save_paths`: for each single sub-model the pair
`(model path, config path)`; for `controlnet` the pair of path lists. -/
structure ModelAndConfigSavePaths where
  text_encoder : FsPath × FsPath
  text_encoder_2 : FsPath × FsPath
  unet : FsPath × FsPath
  vae_encoder : FsPath × FsPath
  vae_decoder : FsPath × FsPath
  controlnet : List FsPath × List FsPath

/-- The processors saved after the sub-models (lines 528-534): optional
tokenizers and feature extractor, unconditional scheduler.  Each holds the
abstract content its `save_pretrained` writes. -/
structure ProcessorState where
  tokenizer : Option Nat
  tokenizer_2 : Option Nat
  scheduler : Nat
  feature_extractor : Option Nat

/-- The i-th ControlNet directory name,
`DIFFUSION_MODEL_CONTROLNET_NAME + f"_{str(idx)}"` (line 497). -/
def controlnetDirName (idx : Nat) : String :=
  "controlnet_" ++ Nat.repr idx

theorem controlnetDirName_injective : Function.Injective controlnetDirName := by
  intro a b h
  have hdata : ("controlnet_".data ++ (Nat.repr a).data) =
      ("controlnet_".data ++ (Nat.repr b).data) := by
    have := congrArg String.data h
    simpa [controlnetDirName] using this
  have hrepr : (Nat.repr a).data = (Nat.repr b).data := List.append_cancel_left hdata
  exact natRepr_injective (by
    have : Nat.repr a = Nat.repr b := by
      cases hra : Nat.repr a
      cases hrb : Nat.repr b
      simp only [hra, hrb] at hrepr
      rw [hrepr]
    exact this)

/-- `NeuronStableDiffusionPipelineBase._save_pretrained` (lines 444-534),
with the default file names.  The Python code iterates the copy list built
from a set intersection; destinations are pairwise distinct, so the model
fixes one copy order.  For the controlnets it zips the source model paths
and config paths with the `controlnet_<i>` destinations, as the source's
appended `zip(src_paths_list, dst_paths_list)` does. -/
def savePretrained (fs : FileSystem) (save_directory : String)
    (model_and_config_save_paths : Option ModelAndConfigSavePaths)
    (procs : ProcessorState) : FileSystem :=
  match model_and_config_save_paths with
  | none => fs
  | some mcsp =>
    let keep_text_encoder := fs.isFile mcsp.text_encoder.1
    let keep_text_encoder_2 := fs.isFile mcsp.text_encoder_2.1
    let keep_vae_encoder := fs.isFile mcsp.vae_encoder.1
    let num_controlnet := if mcsp.controlnet.1.isEmpty then 0 else mcsp.controlnet.1.length
    let dst := fun (name fname : String) => [save_directory, name, fname]
    let fs1 :=
      if keep_text_encoder then
        (fs.copy mcsp.text_encoder.1 (dst "text_encoder" NEURON_FILE_NAME)).copy
          mcsp.text_encoder.2 (dst "text_encoder" CONFIG_NAME)
      else fs
    let fs2 :=
      if keep_text_encoder_2 then
        (fs1.copy mcsp.text_encoder_2.1 (dst "text_encoder_2" NEURON_FILE_NAME)).copy
          mcsp.text_encoder_2.2 (dst "text_encoder_2" CONFIG_NAME)
      else fs1
    let fs3 := (fs2.copy mcsp.unet.1 (dst "unet" NEURON_FILE_NAME)).copy
      mcsp.unet.2 (dst "unet" CONFIG_NAME)
    let fs4 :=
      if keep_vae_encoder then
        (fs3.copy mcsp.vae_encoder.1 (dst "vae_encoder" NEURON_FILE_NAME)).copy
          mcsp.vae_encoder.2 (dst "vae_encoder" CONFIG_NAME)
      else fs3
    let fs5 := (fs4.copy mcsp.vae_decoder.1 (dst "vae_decoder" NEURON_FILE_NAME)).copy
      mcsp.vae_decoder.2 (dst "vae_decoder" CONFIG_NAME)
    let cn_model_dsts := (List.range num_controlnet).map
      (fun idx => [save_directory, controlnetDirName idx, NEURON_FILE_NAME])
    let cn_config_dsts := (List.range num_controlnet).map
      (fun idx => [save_directory, controlnetDirName idx, CONFIG_NAME])
    let fs6 := (mcsp.controlnet.1.zip cn_model_dsts ++
      mcsp.controlnet.2.zip cn_config_dsts).foldl
        (fun acc pr => acc.copy pr.1 pr.2) fs5
    let fs7 :=
      match procs.tokenizer with
      | some c => fs6.write [save_directory, "tokenizer", "tokenizer_config.json"] c
      | none => fs6
    let fs8 :=
      match procs.tokenizer_2 with
      | some c => fs7.write [save_directory, "tokenizer_2", "tokenizer_config.json"] c
      | none => fs7
    let fs9 := fs8.write [save_directory, "scheduler", "scheduler_config.json"] procs.scheduler
    match procs.feature_extractor with
    | some c => fs9.write [save_directory, "feature_extractor", "preprocessor_config.json"] c
    | none => fs9

/-- The `model_and_config_save_paths` dict rebuilt by `_from_pretrained`
(lines 607-637), with the default file names: fixed paths for the five
single sub-models, plus one model/config path pair per directory of
`model_id` whose name starts with `"controlnet"`. -/
def fromPretrainedPaths (fs : FileSystem) (model_dir : String) :
    ModelAndConfigSavePaths :=
  { text_encoder := ([model_dir, "text_encoder", NEURON_FILE_NAME],
      [model_dir, "text_encoder", CONFIG_NAME])
    text_encoder_2 := ([model_dir, "text_encoder_2", NEURON_FILE_NAME],
      [model_dir, "text_encoder_2", CONFIG_NAME])
    unet := ([model_dir, "unet", NEURON_FILE_NAME], [model_dir, "unet", CONFIG_NAME])
    vae_encoder := ([model_dir, "vae_encoder", NEURON_FILE_NAME],
      [model_dir, "vae_encoder", CONFIG_NAME])
    vae_decoder := ([model_dir, "vae_decoder", NEURON_FILE_NAME],
      [model_dir, "vae_decoder", CONFIG_NAME])
    controlnet :=
      let cdirs := (fs.subdirs [model_dir]).filter
        (fun nm => strStartsWith nm "controlnet")
      (cdirs.map (fun nm => [model_dir, nm, NEURON_FILE_NAME]),
       cdirs.map (fun nm => [model_dir, nm, CONFIG_NAME])) }

/-- The config-rebuilding loop of `_from_pretrained` (lines 639-658): for
each name, the configs whose `config.json` exists, collapsed to a single
object or a list like the source does; names with no existing config are
left out. -/
def rebuildConfigs (fs : FileSystem) (mcsp : ModelAndConfigSavePaths) :
    List (String × PySlot Nat) :=
  let entry := fun (name : String) (config_paths : List FsPath) =>
    match collapseList (config_paths.filterMap fs.read) with
    | some s => [(name, s)]
    | none => ([] : List (String × PySlot Nat))
  entry "text_encoder" [mcsp.text_encoder.2] ++
    entry "text_encoder_2" [mcsp.text_encoder_2.2] ++
    entry "unet" [mcsp.unet.2] ++
    entry "vae_encoder" [mcsp.vae_encoder.2] ++
    entry "vae_decoder" [mcsp.vae_decoder.2] ++
    entry "controlnet" mcsp.controlnet.2

/-- C9: when `model_and_config_save_paths` is `None`, `_save_pretrained`
returns after logging a warning and leaves the filesystem — model files,
configs, tokenizers, scheduler, feature extractor — entirely unchanged. -/
theorem C9_save_pretrained_none_noop (fs : FileSystem) (save_directory : String)
    (procs : ProcessorState) :
    savePretrained fs save_directory none procs = fs ∧
      ∀ p, (savePretrained fs save_directory none procs).read p = fs.read p := by
  exact ⟨rfl, fun p => rfl⟩

/-- Whether a path lies below the directory `sd`. -/
def FsPath.under (p : FsPath) (sd : String) : Bool :=
  match p with
  | d :: _ => decide (d = sd)
  | [] => false

theorem under_cons (sd : String) (rest : List String) :
    FsPath.under (sd :: rest) sd = true := by
  simp [FsPath.under]

theorem read_cons (k : FsPath) (v : Nat) (fs : FileSystem) (p : FsPath) :
    FileSystem.read ((k, v) :: fs) p = if p = k then some v else fs.read p := rfl

theorem read_some_mem : ∀ (fs : FileSystem) (p : FsPath) (c : Nat),
    fs.read p = some c → (p, c) ∈ fs := by
  intro fs
  induction fs with
  | nil => intro p c h; cases h
  | cons e tl ih =>
    intro p c h
    match e with
    | (k, v) =>
      rw [read_cons] at h
      by_cases hpk : p = k
      · rw [if_pos hpk] at h
        cases h
        subst hpk
        exact List.mem_cons_self _ _
      · rw [if_neg hpk] at h
        exact List.mem_cons_of_mem _ (ih p c h)

theorem read_none_of_ne (l : FileSystem) (p : FsPath)
    (h : ∀ e ∈ l, e.1 ≠ p) : l.read p = none := by
  induction l with
  | nil => rfl
  | cons e tl ih =>
    match e with
    | (k, v) =>
      rw [read_cons,
        if_neg (fun hc => h (k, v) (List.mem_cons_self _ _) hc.symm)]
      exact ih (fun x hx => h x (List.mem_cons_of_mem _ hx))

theorem read_none_of_under (sd : String) (fs : FileSystem) (p : FsPath)
    (hfs : ∀ e ∈ fs, e.1.under sd = false) (hp : p.under sd = true) :
    fs.read p = none :=
  read_none_of_ne fs p (fun e he hc => by
    have hu := hfs e he
    rw [hc, hp] at hu
    cases hu)

theorem read_not_under (sd : String) (fs : FileSystem) (p : FsPath) (c : Nat)
    (hfs : ∀ e ∈ fs, e.1.under sd = false) (h : fs.read p = some c) :
    p.under sd = false :=
  hfs _ (read_some_mem _ _ _ h)

theorem read_append_some (l1 l2 : FileSystem) (p : FsPath) (c : Nat)
    (h : l1.read p = some c) : FileSystem.read (l1 ++ l2) p = some c := by
  induction l1 with
  | nil => cases h
  | cons e tl ih =>
    match e with
    | (k, v) =>
      rw [read_cons] at h
      rw [List.cons_append, read_cons]
      by_cases hpk : p = k
      · rw [if_pos hpk] at h ⊢
        exact h
      · rw [if_neg hpk] at h ⊢
        exact ih h

theorem read_append_none (l1 l2 : FileSystem) (p : FsPath)
    (h : l1.read p = none) : FileSystem.read (l1 ++ l2) p = l2.read p := by
  induction l1 with
  | nil => rfl
  | cons e tl ih =>
    match e with
    | (k, v) =>
      rw [read_cons] at h
      rw [List.cons_append, read_cons]
      by_cases hpk : p = k
      · rw [if_pos hpk] at h
        cases h
      · rw [if_neg hpk] at h ⊢
        exact ih h

theorem read_pre_not_under (sd : String) (pre fs0 : FileSystem) (p : FsPath)
    (hpre : ∀ e ∈ pre, e.1.under sd = true) (hp : p.under sd = false) :
    FileSystem.read (pre ++ fs0) p = fs0.read p :=
  read_append_none pre fs0 p (read_none_of_ne pre p (fun e he hc => by
    have hu := hpre e he
    rw [hc, hp] at hu
    cases hu))

theorem copy_eq_write (fs : FileSystem) (src dst : FsPath) (c : Nat)
    (h : fs.read src = some c) : fs.copy src dst = (dst, c) :: fs := by
  unfold FileSystem.copy
  rw [h]
  rfl

theorem read_mem_nodup : ∀ (l : FileSystem) (k : FsPath) (v : Nat),
    (k, v) ∈ l → (l.map Prod.fst).Nodup → l.read k = some v := by
  intro l
  induction l with
  | nil => intro k v hm; cases hm
  | cons e tl ih =>
    intro k v hm hnd
    match e with
    | (k', v') =>
      rw [List.map_cons, List.nodup_cons] at hnd
      rcases List.mem_cons.mp hm with h | h
      · cases h
        rw [read_cons, if_pos rfl]
      · have hk : k ≠ k' := by
          intro hc
          subst hc
          exact hnd.1 (List.mem_map.mpr ⟨(k, v), h, rfl⟩)
        rw [read_cons, if_neg hk]
        exact ih k v h hnd.2

/-- The entries written for one single sub-model by `_save_pretrained`
(config entry on top, because it is copied after the model file). -/
def singleSeg (sd name : String) : Option (Nat × Nat) → FileSystem
  | some mc => [([sd, name, CONFIG_NAME], mc.2), ([sd, name, NEURON_FILE_NAME], mc.1)]
  | none => []

/-- A processor entry, present or not. -/
def optEntry (sd name fname : String) : Option Nat → FileSystem
  | some c => [([sd, name, fname], c)]
  | none => []

/-- The processor files written at the end of `_save_pretrained`
(latest write first). -/
def procSeg (sd : String) (procs : ProcessorState) : FileSystem :=
  optEntry sd "feature_extractor" "preprocessor_config.json" procs.feature_extractor ++
  [([sd, "scheduler", "scheduler_config.json"], procs.scheduler)] ++
  optEntry sd "tokenizer_2" "tokenizer_config.json" procs.tokenizer_2 ++
  optEntry sd "tokenizer" "tokenizer_config.json" procs.tokenizer

/-- The controlnet entries written by `_save_pretrained`: config copies
(written later) on top of the model copies. -/
def cnSeg (sd : String) (cms ccs : List Nat) : FileSystem :=
  (((List.range ccs.length).map
      (fun idx => [sd, controlnetDirName idx, CONFIG_NAME])).zip ccs).reverse ++
  (((List.range cms.length).map
      (fun idx => [sd, controlnetDirName idx, NEURON_FILE_NAME])).zip cms).reverse

theorem foldl_copy_zip_spec (sd : String) :
    ∀ (srcs dsts : List FsPath) (cs : List Nat) (pre fs0 : FileSystem),
      dsts.length = cs.length →
      (∀ e ∈ pre, e.1.under sd = true) →
      (∀ e ∈ fs0, e.1.under sd = false) →
      (∀ p ∈ dsts, p.under sd = true) →
      srcs.map fs0.read = cs.map some →
      (srcs.zip dsts).foldl (fun acc pr => acc.copy pr.1 pr.2) (pre ++ fs0) =
        ((dsts.zip cs).reverse ++ pre) ++ fs0 := by
  intro srcs
  induction srcs with
  | nil =>
    intro dsts cs pre fs0 hlen hpre hfs0 hdst hread
    have hcs : cs = [] := by
      have hl := congrArg List.length hread
      simp only [List.map_nil, List.length_nil, List.length_map] at hl
      exact List.length_eq_zero.mp hl.symm
    subst hcs
    have hds : dsts = [] := List.length_eq_zero.mp hlen
    subst hds
    rfl
  | cons s srcs ih =>
    intro dsts cs pre fs0 hlen hpre hfs0 hdst hread
    cases cs with
    | nil => simp at hread
    | cons c cs =>
      cases dsts with
      | nil => simp at hlen
      | cons d dsts =>
        simp only [List.map_cons, List.cons.injEq] at hread
        obtain ⟨hs, hrest⟩ := hread
        have hsunder : s.under sd = false := read_not_under sd fs0 s c hfs0 hs
        have hstep : FileSystem.copy (pre ++ fs0) s d = ((d, c) :: pre) ++ fs0 := by
          have hr : FileSystem.read (pre ++ fs0) s = some c := by
            rw [read_pre_not_under sd pre fs0 s hpre hsunder]
            exact hs
          rw [copy_eq_write _ _ _ _ hr]
          rfl
        have hpre' : ∀ e ∈ ((d, c) :: pre), FsPath.under (Prod.fst e) sd = true := by
          intro e he
          rcases List.mem_cons.mp he with h | h
          · rw [h]
            exact hdst d (List.mem_cons_self _ _)
          · exact hpre e h
        have hdst' : ∀ p ∈ dsts, FsPath.under p sd = true :=
          fun p hp => hdst p (List.mem_cons_of_mem _ hp)
        have hlen' : dsts.length = cs.length := by
          simpa using hlen
        rw [List.zip_cons_cons, List.foldl_cons]
        show (srcs.zip dsts).foldl (fun acc pr => acc.copy pr.1 pr.2)
          (FileSystem.copy (pre ++ fs0) s d) = _
        rw [hstep, ih dsts cs ((d, c) :: pre) fs0 hlen' hpre' hfs0 hdst' hrest]
        simp [List.zip_cons_cons, List.reverse_cons, List.append_assoc]

theorem save_single_step (sd name : String) (pre fs0 : FileSystem)
    (msrc csrc : FsPath) (o : Option (Nat × Nat))
    (hpre : ∀ e ∈ pre, FsPath.under (Prod.fst e) sd = true)
    (hfs0 : ∀ e ∈ fs0, FsPath.under (Prod.fst e) sd = false)
    (ho : match o with
      | some mc => fs0.read msrc = some mc.1 ∧ fs0.read csrc = some mc.2
      | none => fs0.isFile msrc = false) :
    (if fs0.isFile msrc then
        (FileSystem.copy (pre ++ fs0) msrc [sd, name, NEURON_FILE_NAME]).copy
          csrc [sd, name, CONFIG_NAME]
      else pre ++ fs0) =
      (singleSeg sd name o ++ pre) ++ fs0 := by
  match o, ho with
  | some mc, ⟨hm, hc⟩ =>
    have hflag : fs0.isFile msrc = true := by
      rw [FileSystem.isFile, hm]
      rfl
    rw [if_pos hflag]
    have hmu : msrc.under sd = false := read_not_under sd fs0 msrc mc.1 hfs0 hm
    have hcu : csrc.under sd = false := read_not_under sd fs0 csrc mc.2 hfs0 hc
    have hr1 : FileSystem.read (pre ++ fs0) msrc = some mc.1 := by
      rw [read_pre_not_under sd pre fs0 msrc hpre hmu]
      exact hm
    rw [copy_eq_write _ _ _ _ hr1]
    have hpre' : ∀ e ∈ (([sd, name, NEURON_FILE_NAME], mc.1) :: pre),
        FsPath.under (Prod.fst e) sd = true := by
      intro e he
      rcases List.mem_cons.mp he with h | h
      · rw [h]
        exact under_cons sd _
      · exact hpre e h
    have hr2 : FileSystem.read (([sd, name, NEURON_FILE_NAME], mc.1) :: (pre ++ fs0))
        csrc = some mc.2 := by
      show FileSystem.read ((([sd, name, NEURON_FILE_NAME], mc.1) :: pre) ++ fs0) csrc = _
      rw [read_pre_not_under sd _ fs0 csrc hpre' hcu]
      exact hc
    rw [copy_eq_write _ _ _ _ hr2]
    rfl
  | none, ho =>
    have hflag : fs0.isFile msrc = false := ho
    rw [if_neg (by rw [hflag]; exact Bool.false_ne_true)]
    rfl

theorem under_map_range (sd f : String) (n : Nat) :
    ∀ p ∈ (List.range n).map (fun idx => [sd, controlnetDirName idx, f]),
      FsPath.under p sd = true := by
  intro p hp
  simp only [List.mem_map] at hp
  obtain ⟨i, -, rfl⟩ := hp
  exact under_cons sd _

theorem num_controlnet_eq (l : List FsPath) :
    (if l.isEmpty then 0 else l.length) = l.length := by
  cases l with
  | nil => rfl
  | cons a t => rfl

/-- The tree written by `_save_pretrained` on a well-formed pipeline state:
processor files on top, then the controlnet copies, then the five single
sub-models (`tE`, `tE2`, `vE` carry the model/config contents of the
optional sub-models whose compiled file exists; the U-Net and VAE decoder
contents are mandatory; `cms`/`ccs` are the controlnet model/config
contents). -/
theorem savePretrained_eq (fs : FileSystem) (sd : String)
    (mcsp : ModelAndConfigSavePaths) (procs : ProcessorState)
    (tE tE2 vE : Option (Nat × Nat)) (uM uC vdM vdC : Nat) (cms ccs : List Nat)
    (hfs0 : ∀ e ∈ fs, FsPath.under (Prod.fst e) sd = false)
    (hte : match tE with
      | some mc => fs.read mcsp.text_encoder.1 = some mc.1 ∧
          fs.read mcsp.text_encoder.2 = some mc.2
      | none => fs.isFile mcsp.text_encoder.1 = false)
    (hte2 : match tE2 with
      | some mc => fs.read mcsp.text_encoder_2.1 = some mc.1 ∧
          fs.read mcsp.text_encoder_2.2 = some mc.2
      | none => fs.isFile mcsp.text_encoder_2.1 = false)
    (hve : match vE with
      | some mc => fs.read mcsp.vae_encoder.1 = some mc.1 ∧
          fs.read mcsp.vae_encoder.2 = some mc.2
      | none => fs.isFile mcsp.vae_encoder.1 = false)
    (hu1 : fs.read mcsp.unet.1 = some uM) (hu2 : fs.read mcsp.unet.2 = some uC)
    (hvd1 : fs.read mcsp.vae_decoder.1 = some vdM)
    (hvd2 : fs.read mcsp.vae_decoder.2 = some vdC)
    (hcm : mcsp.controlnet.1.map fs.read = cms.map some)
    (hcc : mcsp.controlnet.2.map fs.read = ccs.map some)
    (hccl : ccs.length = cms.length) :
    savePretrained fs sd (some mcsp) procs =
      procSeg sd procs ++ (cnSeg sd cms ccs ++
        (singleSeg sd "vae_decoder" (some (vdM, vdC)) ++
          (singleSeg sd "vae_encoder" vE ++
            (singleSeg sd "unet" (some (uM, uC)) ++
              (singleSeg sd "text_encoder_2" tE2 ++
                (singleSeg sd "text_encoder" tE ++ fs)))))) := by
  have hcm_len : mcsp.controlnet.1.length = cms.length := by
    have := congrArg List.length hcm
    simpa using this
  have hcc_len : mcsp.controlnet.2.length = ccs.length := by
    have := congrArg List.length hcc
    simpa using this
  have e1 : (if fs.isFile mcsp.text_encoder.1 then
      (FileSystem.copy fs mcsp.text_encoder.1 [sd, "text_encoder", NEURON_FILE_NAME]).copy
        mcsp.text_encoder.2 [sd, "text_encoder", CONFIG_NAME]
    else fs) = (singleSeg sd "text_encoder" tE ++ []) ++ fs := by
    exact save_single_step sd "text_encoder" [] fs mcsp.text_encoder.1
      mcsp.text_encoder.2 tE (by intro e he; cases he) hfs0 hte
  rw [List.append_nil] at e1
  have hpre1 : ∀ e ∈ singleSeg sd "text_encoder" tE,
      FsPath.under (Prod.fst e) sd = true := by
    intro e he
    match tE, he with
    | some mc, he =>
      rcases List.mem_cons.mp he with h | h
      · rw [h]; exact under_cons sd _
      · rcases List.mem_cons.mp h with h' | h'
        · rw [h']; exact under_cons sd _
        · cases h'
  have e2 := save_single_step sd "text_encoder_2" (singleSeg sd "text_encoder" tE)
    fs mcsp.text_encoder_2.1 mcsp.text_encoder_2.2 tE2 hpre1 hfs0 hte2
  have seg_under : ∀ (name : String) (o : Option (Nat × Nat)),
      ∀ e ∈ singleSeg sd name o, FsPath.under (Prod.fst e) sd = true := by
    intro name o e he
    match o, he with
    | some mc, he =>
      rcases List.mem_cons.mp he with h | h
      · rw [h]; exact under_cons sd _
      · rcases List.mem_cons.mp h with h' | h'
        · rw [h']; exact under_cons sd _
        · cases h'
  have pre_under_append : ∀ (l1 l2 : FileSystem),
      (∀ e ∈ l1, FsPath.under (Prod.fst e) sd = true) →
      (∀ e ∈ l2, FsPath.under (Prod.fst e) sd = true) →
      ∀ e ∈ l1 ++ l2, FsPath.under (Prod.fst e) sd = true := by
    intro l1 l2 h1 h2 e he
    rcases List.mem_append.mp he with h | h
    · exact h1 e h
    · exact h2 e h
  have hpre2 : ∀ e ∈ (singleSeg sd "text_encoder_2" tE2 ++
      singleSeg sd "text_encoder" tE), FsPath.under (Prod.fst e) sd = true :=
    pre_under_append _ _ (seg_under _ _) (seg_under _ _)
  have e3 := save_single_step sd "unet"
    (singleSeg sd "text_encoder_2" tE2 ++ singleSeg sd "text_encoder" tE) fs
    mcsp.unet.1 mcsp.unet.2 (some (uM, uC)) hpre2 hfs0 ⟨hu1, hu2⟩
  have hu_flag : fs.isFile mcsp.unet.1 = true := by
    rw [FileSystem.isFile, hu1]
    rfl
  rw [if_pos hu_flag] at e3
  have hpre3 : ∀ e ∈ (singleSeg sd "unet" (some (uM, uC)) ++
      (singleSeg sd "text_encoder_2" tE2 ++ singleSeg sd "text_encoder" tE)),
      FsPath.under (Prod.fst e) sd = true :=
    pre_under_append _ _ (seg_under _ _) hpre2
  have e4 := save_single_step sd "vae_encoder"
    (singleSeg sd "unet" (some (uM, uC)) ++
      (singleSeg sd "text_encoder_2" tE2 ++ singleSeg sd "text_encoder" tE)) fs
    mcsp.vae_encoder.1 mcsp.vae_encoder.2 vE hpre3 hfs0 hve
  have hpre4 : ∀ e ∈ (singleSeg sd "vae_encoder" vE ++
      (singleSeg sd "unet" (some (uM, uC)) ++
        (singleSeg sd "text_encoder_2" tE2 ++ singleSeg sd "text_encoder" tE))),
      FsPath.under (Prod.fst e) sd = true :=
    pre_under_append _ _ (seg_under _ _) hpre3
  have e5 := save_single_step sd "vae_decoder"
    (singleSeg sd "vae_encoder" vE ++
      (singleSeg sd "unet" (some (uM, uC)) ++
        (singleSeg sd "text_encoder_2" tE2 ++ singleSeg sd "text_encoder" tE))) fs
    mcsp.vae_decoder.1 mcsp.vae_decoder.2 (some (vdM, vdC)) hpre4 hfs0 ⟨hvd1, hvd2⟩
  have hvd_flag : fs.isFile mcsp.vae_decoder.1 = true := by
    rw [FileSystem.isFile, hvd1]
    rfl
  rw [if_pos hvd_flag] at e5
  have hpre5 : ∀ e ∈ (singleSeg sd "vae_decoder" (some (vdM, vdC)) ++
      (singleSeg sd "vae_encoder" vE ++
        (singleSeg sd "unet" (some (uM, uC)) ++
          (singleSeg sd "text_encoder_2" tE2 ++ singleSeg sd "text_encoder" tE)))),
      FsPath.under (Prod.fst e) sd = true :=
    pre_under_append _ _ (seg_under _ _) hpre4
  -- the two controlnet folds
  have hfold_m := foldl_copy_zip_spec sd mcsp.controlnet.1
    ((List.range cms.length).map
      (fun idx => [sd, controlnetDirName idx, NEURON_FILE_NAME])) cms
    (singleSeg sd "vae_decoder" (some (vdM, vdC)) ++
      (singleSeg sd "vae_encoder" vE ++
        (singleSeg sd "unet" (some (uM, uC)) ++
          (singleSeg sd "text_encoder_2" tE2 ++ singleSeg sd "text_encoder" tE)))) fs
    (by simp) hpre5 hfs0 (under_map_range sd _ _) hcm
  have hpre6 : ∀ e ∈ ((((List.range cms.length).map
      (fun idx => [sd, controlnetDirName idx, NEURON_FILE_NAME])).zip cms).reverse ++
      (singleSeg sd "vae_decoder" (some (vdM, vdC)) ++
        (singleSeg sd "vae_encoder" vE ++
          (singleSeg sd "unet" (some (uM, uC)) ++
            (singleSeg sd "text_encoder_2" tE2 ++ singleSeg sd "text_encoder" tE))))),
      FsPath.under (Prod.fst e) sd = true := by
    refine pre_under_append _ _ ?_ hpre5
    intro e he
    rw [List.mem_reverse] at he
    have := List.of_mem_zip he
    exact under_map_range sd _ _ e.1 this.1
  have hfold_c := foldl_copy_zip_spec sd mcsp.controlnet.2
    ((List.range cms.length).map
      (fun idx => [sd, controlnetDirName idx, CONFIG_NAME])) ccs
    ((((List.range cms.length).map
      (fun idx => [sd, controlnetDirName idx, NEURON_FILE_NAME])).zip cms).reverse ++
      (singleSeg sd "vae_decoder" (some (vdM, vdC)) ++
        (singleSeg sd "vae_encoder" vE ++
          (singleSeg sd "unet" (some (uM, uC)) ++
            (singleSeg sd "text_encoder_2" tE2 ++ singleSeg sd "text_encoder" tE))))) fs
    (by simp [hccl]) hpre6 hfs0 (under_map_range sd _ _) hcc
  -- assemble
  obtain ⟨ptok, ptok2, psched, pfe⟩ := procs
  have hnum : (if mcsp.controlnet.1.isEmpty = true then 0 else cms.length) = cms.length := by
    cases hE : mcsp.controlnet.1.isEmpty
    · simp
    · have hnil : mcsp.controlnet.1 = [] := List.isEmpty_iff.mp hE
      rw [hnil] at hcm
      have : cms = [] := by
        cases cms with
        | nil => rfl
        | cons a t => simp at hcm
      simp [this]
  simp only [savePretrained, num_controlnet_eq, hcm_len, hnum]
  rw [e1, e2, e3, e4, e5]
  rw [List.foldl_append]
  rw [show mcsp.controlnet.1.length = cms.length from hcm_len] at *
  rw [hfold_m]
  rw [hfold_c]
  simp only [procSeg, cnSeg, hccl]
  cases ptok <;> cases ptok2 <;> cases pfe <;>
    simp [FileSystem.write, optEntry, List.append_assoc]

theorem isPrefixOf_append_self (l t : List Char) : l.isPrefixOf (l ++ t) = true := by
  induction l with
  | nil => simp
  | cons a as ih => simp [List.isPrefixOf, ih]

theorem strStartsWith_controlnetDirName (i : Nat) :
    strStartsWith (controlnetDirName i) "controlnet" = true := by
  have hdata : ("controlnet_" ++ Nat.repr i).data =
      "controlnet".data ++ ('_' :: (Nat.repr i).data) := by
    rw [String.data_append]
    rfl
  rw [strStartsWith, controlnetDirName, hdata]
  exact isPrefixOf_append_self _ _

theorem ne_of_startsWith {x y pre : String} (hx : strStartsWith x pre = true)
    (hy : strStartsWith y pre = false) : x ≠ y := by
  intro h
  rw [h, hy] at hx
  cases hx

theorem controlnetDirName_ne_of_false (y : String)
    (hy : strStartsWith y "controlnet" = false) (i : Nat) :
    controlnetDirName i ≠ y :=
  ne_of_startsWith (strStartsWith_controlnetDirName i) hy

theorem cn_path_ne (sd : String) (i : Nat) (f y pf : String)
    (hy : strStartsWith y "controlnet" = false) :
    ([sd, controlnetDirName i, f] : FsPath) ≠ [sd, y, pf] := by
  intro hc
  simp only [List.cons.injEq] at hc
  exact controlnetDirName_ne_of_false y hy i hc.2.1

theorem read_singleSeg_ne (sd name : String) (o : Option (Nat × Nat))
    (qname qf : String) (h : qname ≠ name) :
    (singleSeg sd name o).read [sd, qname, qf] = none := by
  cases o with
  | none => rfl
  | some mc =>
    simp [singleSeg, FileSystem.read, h]

theorem read_singleSeg_config (sd name : String) (mc : Nat × Nat) :
    (singleSeg sd name (some mc)).read [sd, name, CONFIG_NAME] = some mc.2 := by
  simp [singleSeg, FileSystem.read]

theorem read_singleSeg_model (sd name : String) (mc : Nat × Nat) :
    (singleSeg sd name (some mc)).read [sd, name, NEURON_FILE_NAME] = some mc.1 := by
  simp [singleSeg, FileSystem.read, NEURON_FILE_NAME, CONFIG_NAME]

theorem read_procSeg_ne (sd : String) (procs : ProcessorState) (p : FsPath)
    (h1 : p ≠ [sd, "feature_extractor", "preprocessor_config.json"])
    (h2 : p ≠ [sd, "scheduler", "scheduler_config.json"])
    (h3 : p ≠ [sd, "tokenizer_2", "tokenizer_config.json"])
    (h4 : p ≠ [sd, "tokenizer", "tokenizer_config.json"]) :
    (procSeg sd procs).read p = none := by
  obtain ⟨t, t2, s, fe⟩ := procs
  cases t <;> cases t2 <;> cases fe <;>
    simp [procSeg, optEntry, FileSystem.read, h1, h2, h3, h4]

theorem getD_zip_map_range (f : Nat → FsPath) :
    ∀ (cs : List Nat) (i : Nat), i < cs.length →
      (f i, cs.getD i 0) ∈ ((List.range cs.length).map f).zip cs := by
  intro cs
  induction cs generalizing f with
  | nil =>
    intro i hi
    simp at hi
  | cons c cs ih =>
    intro i hi
    rw [List.length_cons, List.range_succ_eq_map, List.map_cons, List.map_map,
      List.zip_cons_cons]
    match i with
    | 0 => exact List.mem_cons_self _ _
    | i + 1 =>
      refine List.mem_cons_of_mem _ ?_
      exact ih (fun j => f (j + 1)) i (Nat.lt_of_succ_lt_succ hi)

theorem pathOfName_injective (sd f : String) :
    Function.Injective (fun idx => ([sd, controlnetDirName idx, f] : FsPath)) := by
  intro a b h
  simp only [List.cons.injEq, and_true, true_and] at h
  exact controlnetDirName_injective (by simpa using h)

theorem nodup_dsts (sd f : String) (n : Nat) :
    (((List.range n).map (fun idx => ([sd, controlnetDirName idx, f] : FsPath)))).Nodup :=
  (List.nodup_range n).map (pathOfName_injective sd f)

theorem read_zip_rev (sd f : String) (cs : List Nat) (i : Nat) (hi : i < cs.length) :
    FileSystem.read ((((List.range cs.length).map
        (fun idx => [sd, controlnetDirName idx, f])).zip cs).reverse)
      [sd, controlnetDirName i, f] = some (cs.getD i 0) := by
  apply read_mem_nodup
  · rw [List.mem_reverse]
    exact getD_zip_map_range _ cs i hi
  · rw [List.map_reverse, List.nodup_reverse,
      List.map_fst_zip _ _ (by simp)]
    exact nodup_dsts sd f cs.length

theorem read_zip_rev_ne (sd f : String) (cs : List Nat) (q : FsPath)
    (hq : ∀ j f2, q = [sd, controlnetDirName j, f2] → f2 ≠ f) :
    FileSystem.read ((((List.range cs.length).map
        (fun idx => [sd, controlnetDirName idx, f])).zip cs).reverse) q = none := by
  apply read_none_of_ne
  intro e he hc
  rw [List.mem_reverse] at he
  have hparts := List.of_mem_zip he
  obtain ⟨j, -, hj⟩ := List.mem_map.mp hparts.1
  exact hq j f (by rw [← hc, ← hj]) rfl

theorem read_cnSeg_other (sd : String) (cms ccs : List Nat) (q : FsPath)
    (hq : ∀ j f2, q = [sd, controlnetDirName j, f2] → False) :
    (cnSeg sd cms ccs).read q = none := by
  rw [cnSeg, read_append_none, read_zip_rev_ne]
  · intro j f2 h
    exact absurd h (fun hc => hq j f2 hc)
  · exact read_zip_rev_ne sd _ ccs q (fun j f2 h _ => hq j f2 h)

theorem read_cnSeg_config (sd : String) (cms ccs : List Nat) (i : Nat)
    (hi : i < ccs.length) :
    (cnSeg sd cms ccs).read [sd, controlnetDirName i, CONFIG_NAME] =
      some (ccs.getD i 0) := by
  rw [cnSeg]
  rw [read_append_some]
  exact read_zip_rev sd CONFIG_NAME ccs i hi

theorem read_cnSeg_model (sd : String) (cms ccs : List Nat) (i : Nat)
    (hi : i < cms.length) :
    (cnSeg sd cms ccs).read [sd, controlnetDirName i, NEURON_FILE_NAME] =
      some (cms.getD i 0) := by
  rw [cnSeg]
  rw [read_append_none]
  · exact read_zip_rev sd NEURON_FILE_NAME cms i hi
  · refine read_zip_rev_ne sd CONFIG_NAME ccs _ ?_
    intro j f2 h
    have : f2 = NEURON_FILE_NAME := by
      have := congrArg (fun l => List.getD l 2 "") h
      simpa using this.symm
    rw [this]
    decide

theorem stripPre_single (sd : String) (p q : FsPath) :
    stripPre [sd] p = some q ↔ p = sd :: q := by
  cases p with
  | nil =>
    constructor
    · intro h; cases h
    · intro h; cases h
  | cons d ds =>
    have hred : stripPre [sd] (d :: ds) = if sd = d then some ds else none := rfl
    rw [hred]
    by_cases hsd : sd = d
    · subst hsd
      rw [if_pos rfl]
      constructor
      · intro h
        cases h
        rfl
      · intro h
        rw [List.cons.injEq] at h
        rw [h.2]
    · rw [if_neg hsd]
      constructor
      · intro h
        cases h
      · intro h
        rw [List.cons.injEq] at h
        exact absurd h.1.symm hsd

theorem mem_childNames (fs : FileSystem) (sd x : String) :
    x ∈ fs.childNames [sd] ↔
      ∃ e ∈ fs, ∃ y t, (Prod.fst e : FsPath) = sd :: x :: y :: t := by
  rw [FileSystem.childNames, List.mem_filterMap]
  constructor
  · rintro ⟨e, he, hf⟩
    cases hs : stripPre [sd] e.1 with
    | none => rw [hs] at hf; cases hf
    | some rest =>
      rw [hs] at hf
      match rest, hf with
      | x' :: y :: t, hf =>
        cases hf
        exact ⟨e, he, y, t, (stripPre_single sd e.1 _).mp hs⟩
  · rintro ⟨e, he, y, t, hp⟩
    refine ⟨e, he, ?_⟩
    rw [(stripPre_single sd e.1 (x :: y :: t)).mpr hp]

theorem map_getD_range : ∀ (cs : List Nat),
    (List.range cs.length).map (fun i => cs.getD i 0) = cs := by
  intro cs
  induction cs with
  | nil => rfl
  | cons c cs ih =>
    rw [List.length_cons, List.range_succ_eq_map, List.map_cons, List.map_map]
    have hfun : ((fun i => (c :: cs).getD i 0) ∘ Nat.succ) = (fun j => cs.getD j 0) := rfl
    rw [hfun, ih]
    rfl

theorem filterMap_singleton_read (fs : FileSystem) (p : FsPath) :
    ([p].filterMap fs.read) =
      (match fs.read p with | some c => [c] | none => []) := by
  cases h : fs.read p <;> simp [List.filterMap_cons, h]

theorem filterMap_read_map (fs : FileSystem) (g : String → FsPath) (l : List String)
    (h : ∀ x ∈ l, (fs.read (g x)).isSome = true) :
    (l.map g).filterMap fs.read = l.map (fun x => (fs.read (g x)).getD 0) := by
  induction l with
  | nil => rfl
  | cons a t ih =>
    obtain ⟨c, hc⟩ := Option.isSome_iff_exists.mp (h a (List.mem_cons_self _ _))
    rw [List.map_cons, List.filterMap_cons, hc, List.map_cons]
    rw [ih (fun x hx => h x (List.mem_cons_of_mem _ hx))]
    rw [hc]
    rfl

theorem optEntry_shape (sd name fname : String) (o : Option Nat) :
    ∀ e ∈ optEntry sd name fname o, ∃ c, e = ([sd, name, fname], c) := by
  intro e he
  cases o with
  | none => cases he
  | some c =>
    rcases List.mem_cons.mp he with h | h
    · exact ⟨c, h⟩
    · cases h

theorem procSeg_shape (sd : String) (procs : ProcessorState) :
    ∀ e ∈ procSeg sd procs, ∃ pn pf c, e = ([sd, pn, pf], c) ∧
      strStartsWith pn "controlnet" = false := by
  intro e he
  rw [procSeg] at he
  rcases List.mem_append.mp he with h | h
  · rcases List.mem_append.mp h with h' | h'
    · rcases List.mem_append.mp h' with h'' | h''
      · obtain ⟨c, rfl⟩ := optEntry_shape _ _ _ _ e h''
        exact ⟨_, _, c, rfl, by decide⟩
      · rcases List.mem_cons.mp h'' with h3 | h3
        · exact ⟨_, _, procs.scheduler, h3, by decide⟩
        · cases h3
    · obtain ⟨c, rfl⟩ := optEntry_shape _ _ _ _ e h'
      exact ⟨_, _, c, rfl, by decide⟩
  · obtain ⟨c, rfl⟩ := optEntry_shape _ _ _ _ e h
    exact ⟨_, _, c, rfl, by decide⟩

theorem cnSeg_shape (sd : String) (cms ccs : List Nat) :
    ∀ e ∈ cnSeg sd cms ccs, ∃ j f2 c,
      (j < cms.length ∨ j < ccs.length) ∧ e = ([sd, controlnetDirName j, f2], c) := by
  intro e he
  rw [cnSeg] at he
  obtain ⟨p1, c1⟩ := e
  rcases List.mem_append.mp he with h | h <;> rw [List.mem_reverse] at h
  · have hz := List.of_mem_zip h
    obtain ⟨j, hj, hje⟩ := List.mem_map.mp hz.1
    refine ⟨j, CONFIG_NAME, c1, Or.inr (List.mem_range.mp hj), ?_⟩
    rw [← hje]
  · have hz := List.of_mem_zip h
    obtain ⟨j, hj, hje⟩ := List.mem_map.mp hz.1
    refine ⟨j, NEURON_FILE_NAME, c1, Or.inl (List.mem_range.mp hj), ?_⟩
    rw [← hje]

theorem singleSeg_shape (sd name : String) (o : Option (Nat × Nat)) :
    ∀ e ∈ singleSeg sd name o, ∃ pf c, e = ([sd, name, pf], c) := by
  intro e he
  cases o with
  | none => cases he
  | some mc =>
    rcases List.mem_cons.mp he with h | h
    · exact ⟨_, _, h⟩
    · rcases List.mem_cons.mp h with h' | h'
      · exact ⟨_, _, h'⟩
      · cases h'

theorem read_EX_skip (sd : String) (procs : ProcessorState) (cms ccs : List Nat)
    (rest : FileSystem) (name fname : String)
    (hname : strStartsWith name "controlnet" = false)
    (h1 : name ≠ "feature_extractor") (h2 : name ≠ "scheduler")
    (h3 : name ≠ "tokenizer_2") (h4 : name ≠ "tokenizer") :
    FileSystem.read (procSeg sd procs ++ (cnSeg sd cms ccs ++ rest))
      [sd, name, fname] = rest.read [sd, name, fname] := by
  rw [read_append_none _ _ _ (read_procSeg_ne sd procs _
    (by simp [h1]) (by simp [h2]) (by simp [h3]) (by simp [h4]))]
  refine read_append_none _ _ _ (read_cnSeg_other sd cms ccs _ ?_)
  intro j f2 hq
  simp only [List.cons.injEq] at hq
  exact controlnetDirName_ne_of_false name hname j hq.2.1.symm

theorem read_skip_singleSeg (sd oname : String) (o : Option (Nat × Nat))
    (rest : FileSystem) (name fname : String) (h : name ≠ oname) :
    FileSystem.read (singleSeg sd oname o ++ rest) [sd, name, fname] =
      rest.read [sd, name, fname] :=
  read_append_none _ _ _ (read_singleSeg_ne sd oname o name fname h)

theorem read_hit_singleSeg_model (sd name : String) (mc : Nat × Nat)
    (rest : FileSystem) :
    FileSystem.read (singleSeg sd name (some mc) ++ rest)
      [sd, name, NEURON_FILE_NAME] = some mc.1 :=
  read_append_some _ _ _ _ (read_singleSeg_model sd name mc)

theorem read_hit_singleSeg_config (sd name : String) (mc : Nat × Nat)
    (rest : FileSystem) :
    FileSystem.read (singleSeg sd name (some mc) ++ rest)
      [sd, name, CONFIG_NAME] = some mc.2 :=
  read_append_some _ _ _ _ (read_singleSeg_config sd name mc)

theorem read_EX_cn_config (sd : String) (procs : ProcessorState) (cms ccs : List Nat)
    (rest : FileSystem) (i : Nat) (hi : i < ccs.length) :
    FileSystem.read (procSeg sd procs ++ (cnSeg sd cms ccs ++ rest))
      [sd, controlnetDirName i, CONFIG_NAME] = some (ccs.getD i 0) := by
  rw [read_append_none _ _ _ (read_procSeg_ne sd procs _
    (cn_path_ne sd i CONFIG_NAME _ _ (by decide))
    (cn_path_ne sd i CONFIG_NAME _ _ (by decide))
    (cn_path_ne sd i CONFIG_NAME _ _ (by decide))
    (cn_path_ne sd i CONFIG_NAME _ _ (by decide)))]
  exact read_append_some _ _ _ _ (read_cnSeg_config sd cms ccs i hi)

theorem read_EX_cn_model (sd : String) (procs : ProcessorState) (cms ccs : List Nat)
    (rest : FileSystem) (i : Nat) (hi : i < cms.length) :
    FileSystem.read (procSeg sd procs ++ (cnSeg sd cms ccs ++ rest))
      [sd, controlnetDirName i, NEURON_FILE_NAME] = some (cms.getD i 0) := by
  rw [read_append_none _ _ _ (read_procSeg_ne sd procs _
    (cn_path_ne sd i NEURON_FILE_NAME _ _ (by decide))
    (cn_path_ne sd i NEURON_FILE_NAME _ _ (by decide))
    (cn_path_ne sd i NEURON_FILE_NAME _ _ (by decide))
    (cn_path_ne sd i NEURON_FILE_NAME _ _ (by decide)))]
  exact read_append_some _ _ _ _ (read_cnSeg_model sd cms ccs i hi)

theorem cdirs_characterization (sd : String) (procs : ProcessorState)
    (cms ccs : List Nat) (tE tE2 vE : Option (Nat × Nat)) (uM uC vdM vdC : Nat)
    (fs : FileSystem) (hccl : ccs.length = cms.length)
    (hfs0 : ∀ e ∈ fs, FsPath.under (Prod.fst e) sd = false) :
    ∀ x, (x ∈ (FileSystem.subdirs (procSeg sd procs ++ (cnSeg sd cms ccs ++
        (singleSeg sd "vae_decoder" (some (vdM, vdC)) ++
          (singleSeg sd "vae_encoder" vE ++
            (singleSeg sd "unet" (some (uM, uC)) ++
              (singleSeg sd "text_encoder_2" tE2 ++
                (singleSeg sd "text_encoder" tE ++ fs))))))) [sd]).filter
        (fun nm => strStartsWith nm "controlnet")) ↔
      x ∈ (List.range cms.length).map controlnetDirName := by
  intro x
  rw [List.mem_filter, FileSystem.subdirs, List.mem_dedup, mem_childNames]
  constructor
  · rintro ⟨⟨e, he, y, t, hp⟩, hpred⟩
    rcases List.mem_append.mp he with h | h
    · obtain ⟨pn, pf, c, rfl, hpn⟩ := procSeg_shape sd procs e h
      simp only [List.cons.injEq] at hp
      exact absurd hpred (by rw [← hp.2.1, hpn]; exact Bool.false_ne_true)
    rcases List.mem_append.mp h with h | h
    · obtain ⟨j, f2, c, hj, rfl⟩ := cnSeg_shape sd cms ccs e h
      simp only [List.cons.injEq] at hp
      rw [List.mem_map]
      refine ⟨j, List.mem_range.mpr ?_, hp.2.1⟩
      rcases hj with hj | hj
      · exact hj
      · omega
    rcases List.mem_append.mp h with h | h
    · obtain ⟨pf, c, rfl⟩ := singleSeg_shape sd "vae_decoder" _ e h
      simp only [List.cons.injEq] at hp
      exact absurd hpred (by rw [← hp.2.1]; decide)
    rcases List.mem_append.mp h with h | h
    · obtain ⟨pf, c, rfl⟩ := singleSeg_shape sd "vae_encoder" _ e h
      simp only [List.cons.injEq] at hp
      exact absurd hpred (by rw [← hp.2.1]; decide)
    rcases List.mem_append.mp h with h | h
    · obtain ⟨pf, c, rfl⟩ := singleSeg_shape sd "unet" _ e h
      simp only [List.cons.injEq] at hp
      exact absurd hpred (by rw [← hp.2.1]; decide)
    rcases List.mem_append.mp h with h | h
    · obtain ⟨pf, c, rfl⟩ := singleSeg_shape sd "text_encoder_2" _ e h
      simp only [List.cons.injEq] at hp
      exact absurd hpred (by rw [← hp.2.1]; decide)
    rcases List.mem_append.mp h with h | h
    · obtain ⟨pf, c, rfl⟩ := singleSeg_shape sd "text_encoder" _ e h
      simp only [List.cons.injEq] at hp
      exact absurd hpred (by rw [← hp.2.1]; decide)
    · have hu := hfs0 e h
      rw [hp, under_cons] at hu
      cases hu
  · intro hx
    rw [List.mem_map] at hx
    obtain ⟨i, hi, rfl⟩ := hx
    rw [List.mem_range] at hi
    constructor
    · refine ⟨([sd, controlnetDirName i, NEURON_FILE_NAME], cms.getD i 0), ?_,
        NEURON_FILE_NAME, [], rfl⟩
      refine List.mem_append.mpr (Or.inr (List.mem_append.mpr (Or.inl ?_)))
      rw [cnSeg]
      refine List.mem_append.mpr (Or.inr ?_)
      rw [List.mem_reverse]
      exact getD_zip_map_range _ cms i hi
    · exact strStartsWith_controlnetDirName i

/-- C4: `_save_pretrained` mirrors each present sub-model's compiled file
and its `config.json` into `save_directory/<name>/` (the i-th ControlNet
into `save_directory/controlnet_<i>/`), and reading that directory back the
way `_from_pretrained` does recovers the same set of sub-models, the same
per-sub-model configs (the ControlNet configs up to the directory-scan
order, which Python's `iterdir` leaves unspecified), and the same
ControlNet count. -/
theorem C4_save_load_round_trip (fs : FileSystem) (sd : String)
    (mcsp : ModelAndConfigSavePaths) (procs : ProcessorState)
    (tE tE2 vE : Option (Nat × Nat)) (uM uC vdM vdC : Nat) (cms ccs : List Nat)
    (hfs0 : ∀ e ∈ fs, FsPath.under (Prod.fst e) sd = false)
    (hte : match tE with
      | some mc => fs.read mcsp.text_encoder.1 = some mc.1 ∧
          fs.read mcsp.text_encoder.2 = some mc.2
      | none => fs.isFile mcsp.text_encoder.1 = false)
    (hte2 : match tE2 with
      | some mc => fs.read mcsp.text_encoder_2.1 = some mc.1 ∧
          fs.read mcsp.text_encoder_2.2 = some mc.2
      | none => fs.isFile mcsp.text_encoder_2.1 = false)
    (hve : match vE with
      | some mc => fs.read mcsp.vae_encoder.1 = some mc.1 ∧
          fs.read mcsp.vae_encoder.2 = some mc.2
      | none => fs.isFile mcsp.vae_encoder.1 = false)
    (hu1 : fs.read mcsp.unet.1 = some uM) (hu2 : fs.read mcsp.unet.2 = some uC)
    (hvd1 : fs.read mcsp.vae_decoder.1 = some vdM)
    (hvd2 : fs.read mcsp.vae_decoder.2 = some vdC)
    (hcm : mcsp.controlnet.1.map fs.read = cms.map some)
    (hcc : mcsp.controlnet.2.map fs.read = ccs.map some)
    (hccl : ccs.length = cms.length) :
    (savePretrained fs sd (some mcsp) procs).read [sd, "unet", NEURON_FILE_NAME]
        = some uM ∧
    (savePretrained fs sd (some mcsp) procs).read [sd, "unet", CONFIG_NAME]
        = some uC ∧
    (savePretrained fs sd (some mcsp) procs).read [sd, "vae_decoder", NEURON_FILE_NAME]
        = some vdM ∧
    (savePretrained fs sd (some mcsp) procs).read [sd, "vae_decoder", CONFIG_NAME]
        = some vdC ∧
    (∀ mc, tE = some mc →
      (savePretrained fs sd (some mcsp) procs).read [sd, "text_encoder", NEURON_FILE_NAME]
          = some mc.1 ∧
      (savePretrained fs sd (some mcsp) procs).read [sd, "text_encoder", CONFIG_NAME]
          = some mc.2) ∧
    (∀ mc, tE2 = some mc →
      (savePretrained fs sd (some mcsp) procs).read [sd, "text_encoder_2", NEURON_FILE_NAME]
          = some mc.1 ∧
      (savePretrained fs sd (some mcsp) procs).read [sd, "text_encoder_2", CONFIG_NAME]
          = some mc.2) ∧
    (∀ mc, vE = some mc →
      (savePretrained fs sd (some mcsp) procs).read [sd, "vae_encoder", NEURON_FILE_NAME]
          = some mc.1 ∧
      (savePretrained fs sd (some mcsp) procs).read [sd, "vae_encoder", CONFIG_NAME]
          = some mc.2) ∧
    (∀ i, i < cms.length →
      (savePretrained fs sd (some mcsp) procs).read
          [sd, controlnetDirName i, NEURON_FILE_NAME] = some (cms.getD i 0) ∧
      (savePretrained fs sd (some mcsp) procs).read
          [sd, controlnetDirName i, CONFIG_NAME] = some (ccs.getD i 0)) ∧
    (fromPretrainedPaths (savePretrained fs sd (some mcsp) procs) sd).controlnet.1.length
        = cms.length ∧
    (∃ ccs', ccs'.Perm ccs ∧
      rebuildConfigs (savePretrained fs sd (some mcsp) procs)
          (fromPretrainedPaths (savePretrained fs sd (some mcsp) procs) sd) =
        (match tE with
         | some mc => [("text_encoder", PySlot.one mc.2)]
         | none => []) ++
        ((match tE2 with
         | some mc => [("text_encoder_2", PySlot.one mc.2)]
         | none => []) ++
        ([("unet", PySlot.one uC)] ++
        ((match vE with
         | some mc => [("vae_encoder", PySlot.one mc.2)]
         | none => []) ++
        ([("vae_decoder", PySlot.one vdC)] ++
        (match collapseList ccs' with
         | some s => [("controlnet", s)]
         | none => [])))))) := by
  have hEX := savePretrained_eq fs sd mcsp procs tE tE2 vE uM uC vdM vdC cms ccs
    hfs0 hte hte2 hve hu1 hu2 hvd1 hvd2 hcm hcc hccl
  rw [hEX]
  have hru : FileSystem.read (procSeg sd procs ++ (cnSeg sd cms ccs ++
      (singleSeg sd "vae_decoder" (some (vdM, vdC)) ++
        (singleSeg sd "vae_encoder" vE ++
          (singleSeg sd "unet" (some (uM, uC)) ++
            (singleSeg sd "text_encoder_2" tE2 ++
              (singleSeg sd "text_encoder" tE ++ fs)))))))
      [sd, "unet", NEURON_FILE_NAME] = some uM := by
    rw [read_EX_skip sd procs cms ccs _ "unet" NEURON_FILE_NAME (by decide)
        (by decide) (by decide) (by decide) (by decide),
      read_skip_singleSeg sd "vae_decoder" _ _ "unet" _ (by decide),
      read_skip_singleSeg sd "vae_encoder" _ _ "unet" _ (by decide)]
    exact read_hit_singleSeg_model sd "unet" (uM, uC) _
  have hruc : FileSystem.read (procSeg sd procs ++ (cnSeg sd cms ccs ++
      (singleSeg sd "vae_decoder" (some (vdM, vdC)) ++
        (singleSeg sd "vae_encoder" vE ++
          (singleSeg sd "unet" (some (uM, uC)) ++
            (singleSeg sd "text_encoder_2" tE2 ++
              (singleSeg sd "text_encoder" tE ++ fs)))))))
      [sd, "unet", CONFIG_NAME] = some uC := by
    rw [read_EX_skip sd procs cms ccs _ "unet" CONFIG_NAME (by decide)
        (by decide) (by decide) (by decide) (by decide),
      read_skip_singleSeg sd "vae_decoder" _ _ "unet" _ (by decide),
      read_skip_singleSeg sd "vae_encoder" _ _ "unet" _ (by decide)]
    exact read_hit_singleSeg_config sd "unet" (uM, uC) _
  have hrvd : FileSystem.read (procSeg sd procs ++ (cnSeg sd cms ccs ++
      (singleSeg sd "vae_decoder" (some (vdM, vdC)) ++
        (singleSeg sd "vae_encoder" vE ++
          (singleSeg sd "unet" (some (uM, uC)) ++
            (singleSeg sd "text_encoder_2" tE2 ++
              (singleSeg sd "text_encoder" tE ++ fs)))))))
      [sd, "vae_decoder", NEURON_FILE_NAME] = some vdM := by
    rw [read_EX_skip sd procs cms ccs _ "vae_decoder" NEURON_FILE_NAME (by decide)
        (by decide) (by decide) (by decide) (by decide)]
    exact read_hit_singleSeg_model sd "vae_decoder" (vdM, vdC) _
  have hrvdc : FileSystem.read (procSeg sd procs ++ (cnSeg sd cms ccs ++
      (singleSeg sd "vae_decoder" (some (vdM, vdC)) ++
        (singleSeg sd "vae_encoder" vE ++
          (singleSeg sd "unet" (some (uM, uC)) ++
            (singleSeg sd "text_encoder_2" tE2 ++
              (singleSeg sd "text_encoder" tE ++ fs)))))))
      [sd, "vae_decoder", CONFIG_NAME] = some vdC := by
    rw [read_EX_skip sd procs cms ccs _ "vae_decoder" CONFIG_NAME (by decide)
        (by decide) (by decide) (by decide) (by decide)]
    exact read_hit_singleSeg_config sd "vae_decoder" (vdM, vdC) _
  have hrteC : FileSystem.read (procSeg sd procs ++ (cnSeg sd cms ccs ++
      (singleSeg sd "vae_decoder" (some (vdM, vdC)) ++
        (singleSeg sd "vae_encoder" vE ++
          (singleSeg sd "unet" (some (uM, uC)) ++
            (singleSeg sd "text_encoder_2" tE2 ++
              (singleSeg sd "text_encoder" tE ++ fs)))))))
      [sd, "text_encoder", CONFIG_NAME] =
      (match tE with | some mc => some mc.2 | none => none) := by
    rw [read_EX_skip sd procs cms ccs _ "text_encoder" CONFIG_NAME (by decide)
        (by decide) (by decide) (by decide) (by decide),
      read_skip_singleSeg sd "vae_decoder" _ _ "text_encoder" _ (by decide),
      read_skip_singleSeg sd "vae_encoder" _ _ "text_encoder" _ (by decide),
      read_skip_singleSeg sd "unet" _ _ "text_encoder" _ (by decide),
      read_skip_singleSeg sd "text_encoder_2" _ _ "text_encoder" _ (by decide)]
    cases tE with
    | some mc => exact read_hit_singleSeg_config sd "text_encoder" mc fs
    | none =>
      show fs.read [sd, "text_encoder", CONFIG_NAME] = none
      exact read_none_of_under sd fs _ hfs0 (under_cons sd _)
  have hrteM : ∀ mc, tE = some mc → FileSystem.read (procSeg sd procs ++
      (cnSeg sd cms ccs ++
      (singleSeg sd "vae_decoder" (some (vdM, vdC)) ++
        (singleSeg sd "vae_encoder" vE ++
          (singleSeg sd "unet" (some (uM, uC)) ++
            (singleSeg sd "text_encoder_2" tE2 ++
              (singleSeg sd "text_encoder" tE ++ fs)))))))
      [sd, "text_encoder", NEURON_FILE_NAME] = some mc.1 := by
    intro mc hmc
    subst hmc
    rw [read_EX_skip sd procs cms ccs _ "text_encoder" NEURON_FILE_NAME (by decide)
        (by decide) (by decide) (by decide) (by decide),
      read_skip_singleSeg sd "vae_decoder" _ _ "text_encoder" _ (by decide),
      read_skip_singleSeg sd "vae_encoder" _ _ "text_encoder" _ (by decide),
      read_skip_singleSeg sd "unet" _ _ "text_encoder" _ (by decide),
      read_skip_singleSeg sd "text_encoder_2" _ _ "text_encoder" _ (by decide)]
    exact read_hit_singleSeg_model sd "text_encoder" mc fs
  have hrte2C : FileSystem.read (procSeg sd procs ++ (cnSeg sd cms ccs ++
      (singleSeg sd "vae_decoder" (some (vdM, vdC)) ++
        (singleSeg sd "vae_encoder" vE ++
          (singleSeg sd "unet" (some (uM, uC)) ++
            (singleSeg sd "text_encoder_2" tE2 ++
              (singleSeg sd "text_encoder" tE ++ fs)))))))
      [sd, "text_encoder_2", CONFIG_NAME] =
      (match tE2 with | some mc => some mc.2 | none => none) := by
    rw [read_EX_skip sd procs cms ccs _ "text_encoder_2" CONFIG_NAME (by decide)
        (by decide) (by decide) (by decide) (by decide),
      read_skip_singleSeg sd "vae_decoder" _ _ "text_encoder_2" _ (by decide),
      read_skip_singleSeg sd "vae_encoder" _ _ "text_encoder_2" _ (by decide),
      read_skip_singleSeg sd "unet" _ _ "text_encoder_2" _ (by decide)]
    cases tE2 with
    | some mc => exact read_hit_singleSeg_config sd "text_encoder_2" mc _
    | none =>
      show FileSystem.read (singleSeg sd "text_encoder" tE ++ fs)
        [sd, "text_encoder_2", CONFIG_NAME] = none
      rw [read_skip_singleSeg sd "text_encoder" _ _ "text_encoder_2" _ (by decide)]
      exact read_none_of_under sd fs _ hfs0 (under_cons sd _)
  have hrte2M : ∀ mc, tE2 = some mc → FileSystem.read (procSeg sd procs ++
      (cnSeg sd cms ccs ++
      (singleSeg sd "vae_decoder" (some (vdM, vdC)) ++
        (singleSeg sd "vae_encoder" vE ++
          (singleSeg sd "unet" (some (uM, uC)) ++
            (singleSeg sd "text_encoder_2" tE2 ++
              (singleSeg sd "text_encoder" tE ++ fs)))))))
      [sd, "text_encoder_2", NEURON_FILE_NAME] = some mc.1 := by
    intro mc hmc
    subst hmc
    rw [read_EX_skip sd procs cms ccs _ "text_encoder_2" NEURON_FILE_NAME (by decide)
        (by decide) (by decide) (by decide) (by decide),
      read_skip_singleSeg sd "vae_decoder" _ _ "text_encoder_2" _ (by decide),
      read_skip_singleSeg sd "vae_encoder" _ _ "text_encoder_2" _ (by decide),
      read_skip_singleSeg sd "unet" _ _ "text_encoder_2" _ (by decide)]
    exact read_hit_singleSeg_model sd "text_encoder_2" mc _
  have hrveC : FileSystem.read (procSeg sd procs ++ (cnSeg sd cms ccs ++
      (singleSeg sd "vae_decoder" (some (vdM, vdC)) ++
        (singleSeg sd "vae_encoder" vE ++
          (singleSeg sd "unet" (some (uM, uC)) ++
            (singleSeg sd "text_encoder_2" tE2 ++
              (singleSeg sd "text_encoder" tE ++ fs)))))))
      [sd, "vae_encoder", CONFIG_NAME] =
      (match vE with | some mc => some mc.2 | none => none) := by
    rw [read_EX_skip sd procs cms ccs _ "vae_encoder" CONFIG_NAME (by decide)
        (by decide) (by decide) (by decide) (by decide),
      read_skip_singleSeg sd "vae_decoder" _ _ "vae_encoder" _ (by decide)]
    cases vE with
    | some mc => exact read_hit_singleSeg_config sd "vae_encoder" mc _
    | none =>
      show FileSystem.read (singleSeg sd "unet" (some (uM, uC)) ++
        (singleSeg sd "text_encoder_2" tE2 ++
          (singleSeg sd "text_encoder" tE ++ fs)))
        [sd, "vae_encoder", CONFIG_NAME] = none
      rw [read_skip_singleSeg sd "unet" _ _ "vae_encoder" _ (by decide),
        read_skip_singleSeg sd "text_encoder_2" _ _ "vae_encoder" _ (by decide),
        read_skip_singleSeg sd "text_encoder" _ _ "vae_encoder" _ (by decide)]
      exact read_none_of_under sd fs _ hfs0 (under_cons sd _)
  have hrveM : ∀ mc, vE = some mc → FileSystem.read (procSeg sd procs ++
      (cnSeg sd cms ccs ++
      (singleSeg sd "vae_decoder" (some (vdM, vdC)) ++
        (singleSeg sd "vae_encoder" vE ++
          (singleSeg sd "unet" (some (uM, uC)) ++
            (singleSeg sd "text_encoder_2" tE2 ++
              (singleSeg sd "text_encoder" tE ++ fs)))))))
      [sd, "vae_encoder", NEURON_FILE_NAME] = some mc.1 := by
    intro mc hmc
    subst hmc
    rw [read_EX_skip sd procs cms ccs _ "vae_encoder" NEURON_FILE_NAME (by decide)
        (by decide) (by decide) (by decide) (by decide),
      read_skip_singleSeg sd "vae_decoder" _ _ "vae_encoder" _ (by decide)]
    exact read_hit_singleSeg_model sd "vae_encoder" mc _
  have hTmem := cdirs_characterization sd procs cms ccs tE tE2 vE uM uC vdM vdC
    fs hccl hfs0
  have hnd1 : ((FileSystem.subdirs (procSeg sd procs ++ (cnSeg sd cms ccs ++
      (singleSeg sd "vae_decoder" (some (vdM, vdC)) ++
        (singleSeg sd "vae_encoder" vE ++
          (singleSeg sd "unet" (some (uM, uC)) ++
            (singleSeg sd "text_encoder_2" tE2 ++
              (singleSeg sd "text_encoder" tE ++ fs))))))) [sd]).filter
      (fun nm => strStartsWith nm "controlnet")).Nodup :=
    List.Nodup.filter _ (List.nodup_dedup _)
  have hnd2 : ((List.range cms.length).map controlnetDirName).Nodup :=
    (List.nodup_range _).map controlnetDirName_injective
  have hperm := List.perm_of_nodup_nodup_toFinset_eq hnd1 hnd2
    (Finset.ext fun a => by
      rw [List.mem_toFinset, List.mem_toFinset]
      exact hTmem a)
  refine ⟨hru, hruc, hrvd, hrvdc, ?_, ?_, ?_, ?_, ?_, ?_⟩
  · intro mc hmc
    subst hmc
    exact ⟨hrteM mc rfl, hrteC⟩
  · intro mc hmc
    subst hmc
    exact ⟨hrte2M mc rfl, hrte2C⟩
  · intro mc hmc
    subst hmc
    exact ⟨hrveM mc rfl, hrveC⟩
  · intro i hi
    exact ⟨read_EX_cn_model sd procs cms ccs _ i hi,
      read_EX_cn_config sd procs cms ccs _ i (by omega)⟩
  · simp only [fromPretrainedPaths]
    rw [List.length_map, hperm.length_eq, List.length_map, List.length_range]
  · refine ⟨((FileSystem.subdirs (procSeg sd procs ++ (cnSeg sd cms ccs ++
      (singleSeg sd "vae_decoder" (some (vdM, vdC)) ++
        (singleSeg sd "vae_encoder" vE ++
          (singleSeg sd "unet" (some (uM, uC)) ++
            (singleSeg sd "text_encoder_2" tE2 ++
              (singleSeg sd "text_encoder" tE ++ fs))))))) [sd]).filter
      (fun nm => strStartsWith nm "controlnet")).map
        (fun nm => (FileSystem.read (procSeg sd procs ++ (cnSeg sd cms ccs ++
          (singleSeg sd "vae_decoder" (some (vdM, vdC)) ++
            (singleSeg sd "vae_encoder" vE ++
              (singleSeg sd "unet" (some (uM, uC)) ++
                (singleSeg sd "text_encoder_2" tE2 ++
                  (singleSeg sd "text_encoder" tE ++ fs)))))))
          [sd, nm, CONFIG_NAME]).getD 0), ?_, ?_⟩
    · have hmapT := hperm.map
        (fun nm => (FileSystem.read (procSeg sd procs ++ (cnSeg sd cms ccs ++
          (singleSeg sd "vae_decoder" (some (vdM, vdC)) ++
            (singleSeg sd "vae_encoder" vE ++
              (singleSeg sd "unet" (some (uM, uC)) ++
                (singleSeg sd "text_encoder_2" tE2 ++
                  (singleSeg sd "text_encoder" tE ++ fs)))))))
          [sd, nm, CONFIG_NAME]).getD 0)
      have hTval : ((List.range cms.length).map controlnetDirName).map
          (fun nm => (FileSystem.read (procSeg sd procs ++ (cnSeg sd cms ccs ++
            (singleSeg sd "vae_decoder" (some (vdM, vdC)) ++
              (singleSeg sd "vae_encoder" vE ++
                (singleSeg sd "unet" (some (uM, uC)) ++
                  (singleSeg sd "text_encoder_2" tE2 ++
                    (singleSeg sd "text_encoder" tE ++ fs)))))))
            [sd, nm, CONFIG_NAME]).getD 0) = ccs := by
        rw [List.map_map]
        rw [List.map_congr_left (fun i hi => by
          rw [Function.comp_apply,
            read_EX_cn_config sd procs cms ccs _ i
              (by rw [hccl]; exact List.mem_range.mp hi)])]
        rw [← hccl]
        exact map_getD_range ccs
      rw [hTval] at hmapT
      exact hmapT
    · simp only [rebuildConfigs, fromPretrainedPaths]
      rw [filterMap_singleton_read, filterMap_singleton_read,
        filterMap_singleton_read, filterMap_singleton_read,
        filterMap_singleton_read]
      rw [hrteC, hrte2C, hruc, hrveC, hrvdc]
      rw [filterMap_read_map _ _ _ (fun x hx => by
        obtain ⟨i, -, rfl⟩ := List.mem_map.mp ((hTmem x).mp hx)
        rw [read_EX_cn_config sd procs cms ccs _ i
          (by rw [hccl]; exact List.mem_range.mp (by
            have := (hTmem _).mp hx
            rw [List.mem_map] at this
            obtain ⟨j, hj, hje⟩ := this
            have : i = j := controlnetDirName_injective hje.symm
            rw [this]
            exact hj))]
        rfl)]
      cases tE <;> cases tE2 <;> cases vE <;> rfl

/-- A concrete source tree for the round-trip witness: text encoder, U-Net,
VAE decoder and two controlnets present; second text encoder and VAE
encoder absent. -/
def fsW : FileSystem :=
  [(["src", "text_encoder", "model.neuron"], 1),
   (["src", "text_encoder", "config.json"], 2),
   (["src", "unet", "model.neuron"], 3), (["src", "unet", "config.json"], 4),
   (["src", "vae_decoder", "model.neuron"], 5),
   (["src", "vae_decoder", "config.json"], 6),
   (["src", "cn0", "model.neuron"], 7), (["src", "cn0", "config.json"], 8),
   (["src", "cn1", "model.neuron"], 9), (["src", "cn1", "config.json"], 10)]

def mcspW : ModelAndConfigSavePaths :=
  { text_encoder := (["src", "text_encoder", "model.neuron"],
      ["src", "text_encoder", "config.json"])
    text_encoder_2 := (["src", "text_encoder_2", "model.neuron"],
      ["src", "text_encoder_2", "config.json"])
    unet := (["src", "unet", "model.neuron"], ["src", "unet", "config.json"])
    vae_encoder := (["src", "vae_encoder", "model.neuron"],
      ["src", "vae_encoder", "config.json"])
    vae_decoder := (["src", "vae_decoder", "model.neuron"],
      ["src", "vae_decoder", "config.json"])
    controlnet := ([["src", "cn0", "model.neuron"], ["src", "cn1", "model.neuron"]],
      [["src", "cn0", "config.json"], ["src", "cn1", "config.json"]]) }

def procsW : ProcessorState :=
  { tokenizer := some 11, tokenizer_2 := none, scheduler := 12,
    feature_extractor := none }

/-- Witness for C4 at a concrete input: the saved U-Net model file is read
back from `saved/unet/model.neuron`, and reloading recovers both
controlnets. -/
theorem C4_save_load_round_trip_witness :
    (savePretrained fsW "saved" (some mcspW) procsW).read
        ["saved", "unet", NEURON_FILE_NAME] = some 3 ∧
    (fromPretrainedPaths (savePretrained fsW "saved" (some mcspW) procsW)
        "saved").controlnet.1.length = 2 :=
  ⟨(C4_save_load_round_trip fsW "saved" mcspW procsW (some (1, 2)) none none
      3 4 5 6 [7, 9] [8, 10] (by decide) (by decide) (by decide) (by decide)
      (by decide) (by decide) (by decide) (by decide) (by decide) (by decide)
      (by decide)).1,
   (C4_save_load_round_trip fsW "saved" mcspW procsW (some (1, 2)) none none
      3 4 5 6 [7, 9] [8, 10] (by decide) (by decide) (by decide) (by decide)
      (by decide) (by decide) (by decide) (by decide) (by decide) (by decide)
      (by decide)).2.2.2.2.2.2.2.2.1⟩
